import Mathlib

/-!
GameConsole: button debouncer, dead-band filter, screen controller and the two
games.

A shallow embedding of `Buttons.h`, `Input.h`, `GameManager.h`, `PongGame.h`
and `FlappyGame.h`.

Conventions of the embedding

* `digitalRead`, `millis` and `analogRead` are the hardware; every value they
  return is an explicit argument of the embedded function.
* `bool raw = digitalRead(pin)`: `HIGH` (idle, pull-up) is `true`, `LOW`
  (pressed) is `false`.
* `unsigned long` is 32 bits wide; the only arithmetic the source does on it is
  the subtraction `now - t`, embedded as `usub` (wrapping at `2^32`).
* `int` values are embedded as `Int` and `int` arithmetic is exact: the
  operands are ADC readings and menu indices, and the additions and
  subtractions on them stay far from the limits of `int`. The one partial
  `int` operation of the source, `% gameCount`, is embedded with an explicit
  failure for a zero divisor and with C++ truncation otherwise.
* `long` is 32 bits wide; the one `long` computation the source calls for, the
  product inside `map`, wraps around at `2^32` (`wrapLong`).
* Calls on collaborators (the `games` entries, the display, `delay`) are
  recorded, in order, as a list of effects.
* `float` fields and constants are exact rationals (`0.22f` is `11/50`,
  `1.01f` is `101/100`), and `(int)x` truncates toward zero.
* `random` reads an explicit generator, the stream of raw values it will
  return; functions that may call `random` take the generator and return it.
-/

namespace GameConsole

/-! ## Buttons.h -/

/-- The enum `BtnEvent`. -/
inductive BtnEvent where
  | BTN_NONE
  | BTN_SHORT
  | BTN_LONG
  deriving DecidableEq, Repr

/-- Width of `unsigned long`, as a modulus. -/
def ULONG_MOD : Nat := 2 ^ 32

/-- Subtraction of two `unsigned long` values (`now - t`), wrapping. -/
def usub (a b : Nat) : Nat := (a % ULONG_MOD + (ULONG_MOD - b % ULONG_MOD)) % ULONG_MOD

/-- The constant `Button::DEBOUNCE_MS`. -/
def DEBOUNCE_MS : Nat := 25

/-- The constant `Button::LONG_MS`. -/
def LONG_MS : Nat := 450

/-- The private fields of `class Button` with their in-class initialisers
(`pin` only selects the hardware line and is left to the caller). -/
structure Button where
  lastRaw : Bool := true
  stable : Bool := true
  lastChangeMs : Nat := 0
  isDown : Bool := false
  longFired : Bool := false
  downStartMs : Nat := 0
  deriving DecidableEq, Repr

/-- A freshly constructed `Button`. -/
def Button.fresh : Button := {}

/-- The "stable changed?" block of `Button::update` (lines 26-39), run once the
debounce test has passed. Returns the event chosen so far and the new fields. -/
def Button.acceptStable (b : Button) (raw : Bool) (now : Nat) : BtnEvent × Button :=
  if b.stable != raw then
    let b1 := { b with stable := raw }
    if b1.stable == false then
      (BtnEvent.BTN_NONE, { b1 with isDown := true, longFired := false, downStartMs := now })
    else if b1.isDown then
      (if !b1.longFired then BtnEvent.BTN_SHORT else BtnEvent.BTN_NONE, { b1 with isDown := false })
    else
      (BtnEvent.BTN_NONE, b1)
  else
    (BtnEvent.BTN_NONE, b)

/-- The "long fires immediately" block of `Button::update` (lines 42-47). -/
def Button.fireLong (ev : BtnEvent) (b : Button) (now : Nat) : BtnEvent × Button :=
  if b.isDown && !b.longFired && decide (LONG_MS ≤ usub now b.downStartMs) then
    (BtnEvent.BTN_LONG, { b with longFired := true })
  else
    (ev, b)

/-- `Button::update`, with the pin level `raw` and the clock `now` it reads as
arguments. Returns the event and the fields after the call. -/
def Button.update (b : Button) (raw : Bool) (now : Nat) : BtnEvent × Button :=
  let b1 := if raw != b.lastRaw then { b with lastRaw := raw, lastChangeMs := now } else b
  if usub now b1.lastChangeMs < DEBOUNCE_MS then
    (BtnEvent.BTN_NONE, b1)
  else
    let r := Button.acceptStable b1 raw now
    Button.fireLong r.1 r.2 now

/-- One call of `update`: the pin level and the clock value it reads. -/
abbrev Call := Bool × Nat

/-- Consecutive `update` calls; for each call the event returned and the
fields after it. -/
def Button.run (b : Button) : List Call → List (BtnEvent × Button)
  | [] => []
  | c :: cs => Button.update b c.1 c.2 :: Button.run (Button.update b c.1 c.2).2 cs

/-- The fields after consecutive `update` calls. -/
def Button.after (b : Button) : List Call → Button
  | [] => b
  | c :: cs => Button.after (Button.update b c.1 c.2).2 cs

/-- Timestamps of consecutive calls never decrease, starting from `t`, and fit
in an `unsigned long`. -/
def Monotone32 (t : Nat) : List Call → Prop
  | [] => True
  | c :: cs => t ≤ c.2 ∧ c.2 < ULONG_MOD ∧ Monotone32 c.2 cs

/-- The calls are all still settling, read off the call sequence alone:
`prev` is the raw level observed by the previous call (idle before the first
call) and `chg` the time of the most recent call that observed a level
different from the one before it, if there was one. A call qualifies when no
change has been observed yet after it, or when it comes less than
`DEBOUNCE_MS` after the most recent change. -/
def Settling (prev : Bool) (chg : Option Nat) : List Call → Prop
  | [] => True
  | c :: cs =>
    let chg1 := if c.1 != prev then some c.2 else chg
    (match chg1 with
      | none => True
      | some t => c.2 - t < DEBOUNCE_MS) ∧ Settling c.1 chg1 cs

/-- The call `c` made on `b` accepts a press: the stable level goes from idle
to pressed in it. -/
def Button.acceptsPress (b : Button) (c : Call) : Prop :=
  b.stable = true ∧ (Button.update b c.1 c.2).2.stable = false

instance (b : Button) (c : Call) : Decidable (Button.acceptsPress b c) := by
  unfold Button.acceptsPress; infer_instance

/-- The calls that belong to the press in progress: like `Button.run`, but
stopping before the first call that accepts a new press. -/
def Button.runUntilPress (b : Button) : List Call → List (BtnEvent × Button)
  | [] => []
  | c :: cs =>
    if Button.acceptsPress b c then []
    else Button.update b c.1 c.2 :: Button.runUntilPress (Button.update b c.1 c.2).2 cs

/-- Calls before a sample press: idle, then the pressed level seen at 100 ms
and still settling at 110 ms. -/
def sampleHistory : List Call := [(true, 5), (false, 100), (false, 110)]

/-- The call accepting the sample press, at 130 ms. -/
def samplePress : Call := (false, 130)

/-! ## Input.h -/

/-- The struct `Inputs`: one snapshot per poll. -/
structure Inputs where
  potL : Int := 0
  potR : Int := 0
  startEv : BtnEvent := BtnEvent.BTN_NONE
  selectEv : BtnEvent := BtnEvent.BTN_NONE
  deriving DecidableEq, Repr

/-- The fields of `class InputManager` with their in-class initialisers (the
pin numbers only select hardware lines and are left to the caller). -/
structure InputManager where
  deadBand : Int
  btnStart : Button := {}
  btnSelect : Button := {}
  lastL : Int := -1
  lastR : Int := -1
  deriving DecidableEq, Repr

/-- The constructor `InputManager(potLPin, potRPin, deadBand)`: a member
initialiser list and an empty body. -/
def InputManager.new (deadBand : Int) : InputManager := { deadBand := deadBand }

/-- `InputManager::applyDeadband(v, last)`. The first component is the value
returned, the second the value of the reference `last` after the call. -/
def InputManager.applyDeadband (m : InputManager) (v last : Int) : Int × Int :=
  if last < 0 then (v, v)
  else if |v - last| < m.deadBand then (last, last)
  else (v, v)

/-- What one `read()` gets from the hardware: the level and clock seen by each
button's `update`, and the two `analogRead` results. -/
structure Sample where
  rawStart : Bool
  nowStart : Nat
  rawSelect : Bool
  nowSelect : Nat
  adcL : Int
  adcR : Int
  deriving DecidableEq, Repr

/-- `InputManager::read`: the snapshot and the fields after the call. -/
def InputManager.read (m : InputManager) (hw : Sample) : Inputs × InputManager :=
  let s := Button.update m.btnStart hw.rawStart hw.nowStart
  let t := Button.update m.btnSelect hw.rawSelect hw.nowSelect
  let l := m.applyDeadband hw.adcL m.lastL
  let r := m.applyDeadband hw.adcR m.lastR
  ({ potL := l.1, potR := r.1, startEv := s.1, selectEv := t.1 },
   { m with btnStart := s.2, btnSelect := t.2, lastL := l.2, lastR := r.2 })

/-! ## GameManager.h -/

/-- The enum `ScreenState`. -/
inductive ScreenState where
  | MAIN_MENU
  | GAME_MENU
  | IN_GAME
  deriving DecidableEq, Repr

/-- What `GameManager::update` does to its collaborators, in order: calls on
the entry `games[i]`, a finished redraw of the display, and `delay(ms)`. -/
inductive Effect where
  | gameName (i : Int)
  | gameHint (i : Int)
  | gameReset (i : Int)
  | gameUpdate (i : Int) (inp : Inputs)
  | gameRender (i : Int)
  | display
  | delay (ms : Nat)
  deriving DecidableEq, Repr

/-- The index into `games` an effect dereferences, if it does. -/
def Effect.index : Effect → Option Int
  | Effect.gameName i => some i
  | Effect.gameHint i => some i
  | Effect.gameReset i => some i
  | Effect.gameUpdate i _ => some i
  | Effect.gameRender i => some i
  | Effect.display => none
  | Effect.delay _ => none

/-- The fields of `class GameManager` with their in-class initialisers (the
display reference and the `games` array belong to the caller). -/
structure GameManager where
  gameCount : Int
  state : ScreenState := ScreenState.MAIN_MENU
  selected : Int := 0
  active : Int := 0
  deriving DecidableEq, Repr

/-- The constructor `GameManager(disp, games, gameCount)`: a member initialiser
list and an empty body. -/
def GameManager.new (gameCount : Int) : GameManager := { gameCount := gameCount }

/-- `GameManager::begin`. -/
def GameManager.begin (g : GameManager) : GameManager :=
  { g with state := ScreenState.MAIN_MENU, selected := 0, active := 0 }

/-- `GameManager::renderMainMenu`: prints `games[selected]->name()`. -/
def GameManager.renderMainMenu (g : GameManager) : List Effect :=
  [Effect.gameName g.selected, Effect.display, Effect.delay 20]

/-- `GameManager::renderGameMenu`: prints `games[active]->name()` and
`games[active]->hint()`. -/
def GameManager.renderGameMenu (g : GameManager) : List Effect :=
  [Effect.gameName g.active, Effect.gameHint g.active, Effect.display, Effect.delay 20]

/-- The C++ operator `%` on `int`: undefined for a zero divisor, truncating
otherwise. -/
def cmod (a b : Int) : Option Int := if b = 0 then none else some (Int.tmod a b)

/-- The event is `BTN_SHORT` or `BTN_LONG`. -/
def BtnEvent.isPress (e : BtnEvent) : Bool :=
  e == BtnEvent.BTN_SHORT || e == BtnEvent.BTN_LONG

/-- The `MAIN_MENU` block of `GameManager::update`. -/
def GameManager.updateMainMenu (g : GameManager) (inp : Inputs) :
    Option (GameManager × List Effect) :=
  let sel : Option Int :=
    if inp.selectEv = BtnEvent.BTN_SHORT then cmod (g.selected + 1) g.gameCount
    else some g.selected
  sel.map fun s =>
    let g1 := { g with selected := s }
    let g2 := if inp.startEv.isPress then
        { g1 with active := g1.selected, state := ScreenState.GAME_MENU }
      else g1
    (g2, GameManager.renderMainMenu g2)

/-- The `GAME_MENU` block of `GameManager::update`. -/
def GameManager.updateGameMenu (g : GameManager) (inp : Inputs) : GameManager × List Effect :=
  if inp.startEv.isPress then
    ({ g with state := ScreenState.MAIN_MENU }, [Effect.delay 80])
  else if inp.selectEv.isPress then
    ({ g with state := ScreenState.IN_GAME }, [Effect.gameReset g.active, Effect.delay 80])
  else
    (g, GameManager.renderGameMenu g)

/-- The `IN_GAME` block of `GameManager::update`. -/
def GameManager.updateInGame (g : GameManager) (inp : Inputs) : GameManager × List Effect :=
  if inp.startEv = BtnEvent.BTN_LONG then
    ({ g with state := ScreenState.MAIN_MENU }, [Effect.delay 120])
  else if inp.startEv = BtnEvent.BTN_SHORT then
    ({ g with state := ScreenState.GAME_MENU }, [Effect.delay 120])
  else
    (g, [Effect.gameUpdate g.active inp, Effect.gameRender g.active])

/-- `GameManager::update`: the fields after the call and the effects of the
call, or `none` when the call divides by zero. Each of the three blocks of the
source ends in `return`, so exactly one of them runs. -/
def GameManager.update (g : GameManager) (inp : Inputs) : Option (GameManager × List Effect) :=
  match g.state with
  | ScreenState.MAIN_MENU => GameManager.updateMainMenu g inp
  | ScreenState.GAME_MENU => some (GameManager.updateGameMenu g inp)
  | ScreenState.IN_GAME => some (GameManager.updateInGame g inp)

/-- Consecutive `update` calls, one per snapshot, with the effects of all of
them in order. -/
def GameManager.updates (g : GameManager) : List Inputs → Option (GameManager × List Effect)
  | [] => some (g, [])
  | inp :: rest =>
    match GameManager.update g inp with
    | none => none
    | some (g1, e1) =>
      match GameManager.updates g1 rest with
      | none => none
      | some (g2, e2) => some (g2, e1 ++ e2)

/-- Both indices are valid positions in `games`. -/
def GameManager.InBounds (g : GameManager) : Prop :=
  0 ≤ g.selected ∧ g.selected < g.gameCount ∧ 0 ≤ g.active ∧ g.active < g.gameCount

/-- A sample controller with two games, showing the menu of game 1. -/
def sampleGameMenu : GameManager :=
  { gameCount := 2, state := ScreenState.GAME_MENU, selected := 1, active := 1 }

/-- A sample controller with two games, running game 1. -/
def sampleInGame : GameManager :=
  { gameCount := 2, state := ScreenState.IN_GAME, selected := 1, active := 1 }

/-- A sample first read: both buttons idle, the pots at 100 and 200. -/
def sampleRead : Sample :=
  { rawStart := true, nowStart := 0, rawSelect := true, nowSelect := 0, adcL := 100, adcR := 200 }

/-! ## The Arduino core functions `random` and `map` -/

/-- The generator behind `random`: the raw non-negative values it will return,
in order. -/
abbrev Rng := Nat → Nat

/-- The Arduino core function `random(min, max)`: `min` itself when the range
is empty, else `min + raw % (max - min)` for the next raw value of the
generator, so a value in `[min, max - 1]`. Returns the value and the generator
after the call. -/
def Rng.random (lo hi : Int) (g : Rng) : Int × Rng :=
  if lo ≥ hi then (lo, g) else (lo + (g 0 : Int) % (hi - lo), fun n => g (n + 1))

/-- A value brought into the range of `long` (32 bits, two's complement): what
a `long` operation leaves when its exact result is `n`. -/
def wrapLong (n : Int) : Int := (n + 2 ^ 31) % 2 ^ 32 - 2 ^ 31

/-- The Arduino core function `map(x, in_min, in_max, out_min, out_max)`:
`(x - in_min) * (out_max - out_min) / (in_max - in_min) + out_min` in `long`
arithmetic with the C++ truncating division, undefined for `in_max = in_min`.
The product and the final sum wrap around at `2^32`. The differences are taken
exactly: at its one call, in `mapPotToPaddle`, `in_min` and `out_min` are 0 and
the other operands are `int` values. -/
def arduinoMap (x inMin inMax outMin outMax : Int) : Option Int :=
  if inMax - inMin = 0 then none
  else some (wrapLong
    (Int.tdiv (wrapLong ((x - inMin) * (outMax - outMin))) (inMax - inMin) + outMin))

/-- The C++ conversion `(int)q` of a `float`, read on exact rationals:
truncation toward zero. -/
def truncToInt (q : ℚ) : Int := if 0 ≤ q then ⌊q⌋ else ⌈q⌉

/-! ## PongGame.h -/

namespace PongGame

def SCREEN_WIDTH : Int := 128
def SCREEN_HEIGHT : Int := 64
def PADDLE_W : Int := 3
def PADDLE_H : Int := 16
def LEFT_X : Int := 2
def RIGHT_X : Int := SCREEN_WIDTH - 2 - PADDLE_W
def BALL_SIZE : Int := 3

end PongGame

/-- The fields of `class PongGame` with their in-class initialisers; the
`float` fields are exact rationals. -/
structure PongGame where
  ADC_MAX_REAL : Int
  ballX : ℚ := 64
  ballY : ℚ := 32
  vx : ℚ := 19 / 10
  vy : ℚ := 6 / 5
  baseSpeedX : ℚ := 19 / 10
  baseSpeedY : ℚ := 6 / 5
  leftY : Int := 24
  rightY : Int := 24
  scoreL : Int := 0
  scoreR : Int := 0

namespace PongGame

/-- The constructor `PongGame(adcMaxReal)`. -/
def new (adcMaxReal : Int) : PongGame := { ADC_MAX_REAL := adcMaxReal }

/-- `PongGame::mapPotToPaddle`; `none` when `map` divides by zero. -/
def mapPotToPaddle (s : PongGame) (v : Int) : Option Int :=
  let v1 := if v < 0 then 0 else v
  let v2 := if v1 > s.ADC_MAX_REAL then s.ADC_MAX_REAL else v1
  (arduinoMap v2 0 s.ADC_MAX_REAL 0 (SCREEN_HEIGHT - PADDLE_H)).map fun y =>
    let y1 := if y < 0 then 0 else y
    if y1 > SCREEN_HEIGHT - PADDLE_H then SCREEN_HEIGHT - PADDLE_H else y1

/-- `PongGame::resetBall(toRight)`. -/
def resetBall (s : PongGame) (toRight : Bool) (g : Rng) : PongGame × Rng :=
  let r := Rng.random 0 2 g
  ({ s with
      ballX := (SCREEN_WIDTH : ℚ) / 2
      ballY := (SCREEN_HEIGHT : ℚ) / 2
      vx := if toRight then s.baseSpeedX else -s.baseSpeedX
      vy := if r.1 = 0 then s.baseSpeedY else -s.baseSpeedY },
   r.2)

/-- `PongGame::reset`. -/
def reset (s : PongGame) (g : Rng) : PongGame × Rng :=
  resetBall { s with
    scoreL := 0
    scoreR := 0
    leftY := (SCREEN_HEIGHT - PADDLE_H) / 2
    rightY := (SCREEN_HEIGHT - PADDLE_H) / 2 } true g

/-- `PongGame::setBallSpeed`. -/
def setBallSpeed (s : PongGame) (sx sy : ℚ) : PongGame :=
  { s with baseSpeedX := sx, baseSpeedY := sy }

/-- `PongGame::bounce(paddleY, isRight)`. -/
def bounce (s : PongGame) (paddleY : Int) (isRight : Bool) : PongGame :=
  let paddleCenter : ℚ := (paddleY : ℚ) + (PADDLE_H : ℚ) / 2
  let ballCenter : ℚ := s.ballY + (BALL_SIZE : ℚ) / 2
  let rel : ℚ := (ballCenter - paddleCenter) / ((PADDLE_H : ℚ) / 2)
  let rel1 : ℚ := if rel < -1 then -1 else rel
  let rel2 : ℚ := if rel1 > 1 then 1 else rel1
  { s with
    vx := -s.vx * (101 / 100)
    vy := rel2 * (11 / 5)
    ballX := if isRight then ((RIGHT_X - BALL_SIZE - 1 : Int) : ℚ)
      else ((LEFT_X + PADDLE_W + 1 : Int) : ℚ) }

/-- The game with its paddles put at `l` and `r`. -/
def withPaddles (s : PongGame) (l r : Int) : PongGame := { s with leftY := l, rightY := r }

/-- Lines 20-21 of `update`: both paddles follow their pots. -/
def setPaddles (s : PongGame) (inp : Inputs) : Option PongGame :=
  match s.mapPotToPaddle inp.potL with
  | none => none
  | some l =>
    match s.mapPotToPaddle inp.potR with
    | none => none
    | some r => some (s.withPaddles l r)

/-- Lines 22-26 of `update`: the ball moves and is reflected at the top and
bottom walls. -/
def advance (s : PongGame) : PongGame :=
  let s1 := { s with ballX := s.ballX + s.vx, ballY := s.ballY + s.vy }
  let s2 := if s1.ballY ≤ 0 then { s1 with ballY := 0, vy := -s1.vy } else s1
  if s2.ballY ≥ ((SCREEN_HEIGHT - BALL_SIZE : Int) : ℚ) then
    { s2 with ballY := ((SCREEN_HEIGHT - BALL_SIZE : Int) : ℚ), vy := -s2.vy }
  else s2

/-- The condition of the "left paddle" block. -/
def hitsLeft (s : PongGame) : Bool :=
  decide (s.vx < 0) && decide (s.ballX ≤ ((LEFT_X + PADDLE_W : Int) : ℚ)) &&
    decide (s.ballY + (BALL_SIZE : ℚ) ≥ (s.leftY : ℚ)) &&
    decide (s.ballY ≤ ((s.leftY + PADDLE_H : Int) : ℚ))

/-- The condition of the "right paddle" block. -/
def hitsRight (s : PongGame) : Bool :=
  decide (s.vx > 0) && decide (s.ballX + (BALL_SIZE : ℚ) ≥ (RIGHT_X : ℚ)) &&
    decide (s.ballY + (BALL_SIZE : ℚ) ≥ (s.rightY : ℚ)) &&
    decide (s.ballY ≤ ((s.rightY + PADDLE_H : Int) : ℚ))

/-- The "left paddle" block of `update`. -/
def leftPaddle (s : PongGame) : PongGame :=
  if s.hitsLeft then s.bounce s.leftY false else s

/-- The "right paddle" block of `update`. -/
def rightPaddle (s : PongGame) : PongGame :=
  if s.hitsRight then s.bounce s.rightY true else s

/-- The first exit test of `update`: past the left bound. -/
def exitLeft (s : PongGame) (g : Rng) : PongGame × Rng :=
  if s.ballX < -10 then resetBall { s with scoreR := s.scoreR + 1 } true g else (s, g)

/-- The second exit test of `update`: past the right bound. -/
def exitRight (s : PongGame) (g : Rng) : PongGame × Rng :=
  if s.ballX > ((SCREEN_WIDTH + 10 : Int) : ℚ) then
    resetBall { s with scoreL := s.scoreL + 1 } false g
  else (s, g)

/-- Everything `update` does once the paddles are set: move, walls, paddles,
exits, in this order. -/
def stepBall (s : PongGame) (g : Rng) : PongGame × Rng :=
  let p := s.advance.leftPaddle.rightPaddle
  let e := p.exitLeft g
  e.1.exitRight e.2

/-- `PongGame::update`; `none` when `map` divides by zero. -/
def update (s : PongGame) (inp : Inputs) (g : Rng) : Option (PongGame × Rng) :=
  (s.setPaddles inp).map fun a => a.stepBall g

/-- Whether the "left paddle" block of this update bounces the ball; `s` has
its paddles set. -/
def bouncesLeft (s : PongGame) : Bool := s.advance.hitsLeft

/-- Whether the "right paddle" block of this update bounces the ball. -/
def bouncesRight (s : PongGame) : Bool := s.advance.leftPaddle.hitsRight

/-- Whether the first exit test of this update fires. -/
def exitsLeft (s : PongGame) : Bool :=
  decide (s.advance.leftPaddle.rightPaddle.ballX < -10)

/-- Whether the second exit test of this update fires. -/
def exitsRight (s : PongGame) (g : Rng) : Bool :=
  decide ((s.advance.leftPaddle.rightPaddle.exitLeft g).1.ballX > ((SCREEN_WIDTH + 10 : Int) : ℚ))

/-- Whether this update bounces the ball off a paddle. -/
def bounces (s : PongGame) (inp : Inputs) : Bool :=
  match s.setPaddles inp with
  | none => false
  | some a => a.bouncesLeft || a.bouncesRight

/-- Whether this update respawns the ball (one of the exit tests fires). -/
def respawns (s : PongGame) (inp : Inputs) (g : Rng) : Bool :=
  match s.setPaddles inp with
  | none => false
  | some a => a.exitsLeft || a.exitsRight g

/-- Consecutive updates, one per snapshot. -/
def runs (s : PongGame) (g : Rng) : List Inputs → Option (PongGame × Rng)
  | [] => some (s, g)
  | inp :: rest =>
    match s.update inp g with
    | none => none
    | some r => runs r.1 r.2 rest

/-- The updates of the run all belong to one rally: none respawns the ball. -/
def Rally (s : PongGame) (g : Rng) : List Inputs → Prop
  | [] => True
  | inp :: rest =>
    s.respawns inp g = false ∧
      match s.update inp g with
      | none => True
      | some r => Rally r.1 r.2 rest

/-- The fields that moving the ball and bouncing it never touch are the same
in `s` and `t`. -/
def SameTable (s t : PongGame) : Prop :=
  t.ADC_MAX_REAL = s.ADC_MAX_REAL ∧ t.baseSpeedX = s.baseSpeedX ∧
    t.baseSpeedY = s.baseSpeedY ∧ t.leftY = s.leftY ∧ t.rightY = s.rightY ∧
    t.scoreL = s.scoreL ∧ t.scoreR = s.scoreR

end PongGame

/-- A sample generator: every raw draw is 7. -/
def sampleRng : Rng := fun _ => 7

/-- A sample game about to lose the ball on the left, above the reach of the
left paddle at pot value 0. -/
def sampleExitLeft : PongGame :=
  { ADC_MAX_REAL := 4095, ballX := -9, ballY := 32, vx := -19 / 10, vy := 0, scoreR := 2 }

/-- A sample game whose ball is about to touch the bottom wall in mid-field. -/
def sampleWall : PongGame :=
  { ADC_MAX_REAL := 4095, ballX := 64, ballY := 60, vx := 1, vy := 2 }

/-- A sample game about to bounce the ball off the left paddle at pot value
2048. -/
def sampleBounceLeft : PongGame :=
  { ADC_MAX_REAL := 4095, ballX := 6, ballY := 30, vx := -2, vy := 1 }

/-! ## FlappyGame.h -/

namespace FlappyGame

def SCREEN_WIDTH : Int := 128
def SCREEN_HEIGHT : Int := 64
def BIRD_X : Int := 28
def BIRD_SIZE : Int := 4
def PIPE_W : Int := 10
def GAP_H : Int := 28

/-- The field `gravity = 0.22f`, which is never assigned. -/
def gravity : ℚ := 11 / 50

/-- The field `flapVel = -3.0f`, which is never assigned. -/
def flapVel : ℚ := -3

end FlappyGame

/-- The fields of `class FlappyGame` that change, with their in-class
initialisers; the `float` fields are exact rationals. -/
structure FlappyGame where
  birdY : ℚ := 28
  vel : ℚ := 0
  score : Int := 0
  pipeX1 : Int := 128
  pipeX2 : Int := 128 + 64
  gapY1 : Int := 30
  gapY2 : Int := 26
  passed1 : Bool := false
  passed2 : Bool := false

namespace FlappyGame

/-- The draw `random(minC, maxC + 1)` of a gap centre, as in `reset` and
`stepPipe`. -/
def drawGap (g : Rng) : Int × Rng :=
  let minC := GAP_H / 2 + 6
  let maxC := SCREEN_HEIGHT - GAP_H / 2 - 6
  Rng.random minC (maxC + 1) g

/-- `FlappyGame::reset`. -/
def reset (s : FlappyGame) (g : Rng) : FlappyGame × Rng :=
  let d1 := drawGap g
  let d2 := drawGap d1.2
  ({ s with
      birdY := 28
      vel := 0
      score := 0
      pipeX1 := 128
      pipeX2 := 128 + 64
      gapY1 := d1.1
      gapY2 := d2.1
      passed1 := false
      passed2 := false },
   d2.2)

/-- `FlappyGame::stepPipe(pipeX, gapY, passed)`: the three references after the
call, and the generator. -/
def stepPipe (pipeX gapY : Int) (passed : Bool) (g : Rng) : (Int × Int × Bool) × Rng :=
  if pipeX - 1 < -PIPE_W then
    let d := drawGap g
    ((SCREEN_WIDTH, d.1, false), d.2)
  else ((pipeX - 1, gapY, passed), g)

/-- `FlappyGame::collidePipe(pipeX, gapY)`. -/
def collidePipe (s : FlappyGame) (pipeX gapY : Int) : Bool :=
  let topH := gapY - GAP_H / 2
  let botY := gapY + GAP_H / 2
  let bL := BIRD_X
  let bR := BIRD_X + BIRD_SIZE
  let bT := truncToInt s.birdY
  let bB := truncToInt s.birdY + BIRD_SIZE
  let pL := pipeX
  let pR := pipeX + PIPE_W
  if bR ≥ pL ∧ bL ≤ pR then
    if bT < topH then true
    else if bB > botY then true
    else false
  else false

/-- Lines 26-36 of `update`: flap, gravity, both pipes step, the bird is kept
below the top edge. -/
def physics (s : FlappyGame) (inp : Inputs) (g : Rng) : FlappyGame × Rng :=
  let v0 := if inp.selectEv = BtnEvent.BTN_SHORT ∨ inp.selectEv = BtnEvent.BTN_LONG
    then flapVel else s.vel
  let v := v0 + gravity
  let y := s.birdY + v
  let p1 := stepPipe s.pipeX1 s.gapY1 s.passed1 g
  let p2 := stepPipe s.pipeX2 s.gapY2 s.passed2 p1.2
  ({ s with
      vel := v
      birdY := if y < 0 then 0 else y
      pipeX1 := p1.1.1
      gapY1 := p1.1.2.1
      passed1 := p1.1.2.2
      pipeX2 := p2.1.1
      gapY2 := p2.1.2.1
      passed2 := p2.1.2.2 },
   p2.2)

/-- The floor test of `update` (line 38). -/
def hitsFloor (s : FlappyGame) : Bool :=
  decide (s.birdY + (BIRD_SIZE : ℚ) ≥ (SCREEN_HEIGHT : ℚ))

/-- Lines 43-44 of `update`: the two score tests. -/
def scoring (s : FlappyGame) : FlappyGame :=
  let s1 := if (!s.passed1 && decide (s.pipeX1 + PIPE_W < BIRD_X)) = true then
      { s with score := s.score + 1, passed1 := true }
    else s
  if (!s1.passed2 && decide (s1.pipeX2 + PIPE_W < BIRD_X)) = true then
    { s1 with score := s1.score + 1, passed2 := true }
  else s1

/-- The collision test of `update` (line 46). -/
def collides (s : FlappyGame) : Bool :=
  s.collidePipe s.pipeX1 s.gapY1 || s.collidePipe s.pipeX2 s.gapY2

/-- `FlappyGame::update`. -/
def update (s : FlappyGame) (inp : Inputs) (g : Rng) : FlappyGame × Rng :=
  let p := s.physics inp g
  if p.1.hitsFloor then p.1.reset p.2
  else
    let q := p.1.scoring
    if q.collides then q.reset p.2
    else (q, p.2)

/-- Whether this update ends in one of its two `reset()` calls. -/
def endsInReset (s : FlappyGame) (inp : Inputs) (g : Rng) : Bool :=
  (s.physics inp g).1.hitsFloor || (s.physics inp g).1.scoring.collides

/-- What the score tests add for one obstacle, from its position and flag
after `stepPipe`: one if the flag is clear and the trailing edge is left of
the bird, nothing otherwise. -/
def gain (pipeX : Int) (passed : Bool) : Int :=
  if passed = false ∧ pipeX + PIPE_W < BIRD_X then 1 else 0

/-- Consecutive updates, one per snapshot. -/
def runs (s : FlappyGame) (g : Rng) : List Inputs → FlappyGame × Rng
  | [] => (s, g)
  | inp :: rest => runs (s.update inp g).1 (s.update inp g).2 rest

/-- No update of the run ends in a reset. -/
def NoReset (s : FlappyGame) (g : Rng) : List Inputs → Prop
  | [] => True
  | inp :: rest =>
    s.endsInReset inp g = false ∧ NoReset (s.update inp g).1 (s.update inp g).2 rest

/-- The state and generator reached by `reset` followed by one update per
snapshot. -/
def reached (s0 : FlappyGame) (g : Rng) (inps : List Inputs) : FlappyGame × Rng :=
  (s0.reset g).1.runs (s0.reset g).2 inps

/-- The state in which `update` makes its collision test: after the move and
the score tests. -/
def atCollisionTest (s : FlappyGame) (inp : Inputs) (g : Rng) : FlappyGame :=
  (s.physics inp g).1.scoring

/-- The state in which `update` makes its score tests: after the move. -/
def atScoreTest (s : FlappyGame) (inp : Inputs) (g : Rng) : FlappyGame :=
  (s.physics inp g).1

/-- A freshly constructed `FlappyGame`. -/
def fresh : FlappyGame := {}

/-- Whether a run is free of resets can be computed. -/
instance decNoReset :
    ∀ (inps : List Inputs) (s : FlappyGame) (g : Rng), Decidable (s.NoReset g inps)
  | [], _, _ => isTrue trivial
  | inp :: rest, s, g =>
    @instDecidableAnd _ _ _ (decNoReset rest (s.update inp g).1 (s.update inp g).2)

/-- A snapshot without button events. -/
def noFlap : Inputs := {}

/-- A snapshot with a Short event on select: a flap. -/
def flap : Inputs := { selectEv := BtnEvent.BTN_SHORT }

/-- A sample flight of 110 updates: flaps at updates 8, 35, 61 and 87. -/
def sampleFlight : List Inputs :=
  List.replicate 7 noFlap ++ flap :: (List.replicate 26 noFlap ++ flap ::
    (List.replicate 25 noFlap ++ flap :: (List.replicate 25 noFlap ++ flap ::
      List.replicate 23 noFlap)))

/-- A sample game one step before obstacle 1 is passed, with three points
scored. -/
def sampleScoring : FlappyGame := { pipeX1 := 18, pipeX2 := 82, score := 3 }

/-- A sample game with the bird just above the floor and five points scored. -/
def sampleFalling : FlappyGame := { birdY := 60, score := 5 }

/-- The invariant of the two obstacles: each flag says whether the trailing
edge is left of the bird, neither obstacle is past its recycle position, the
obstacles are 64 apart (modulo the cycle of 139 positions), and the score is
not negative. -/
def Inv (s : FlappyGame) : Prop :=
  (s.passed1 = true ↔ s.pipeX1 + PIPE_W < BIRD_X) ∧
  (s.passed2 = true ↔ s.pipeX2 + PIPE_W < BIRD_X) ∧
  -PIPE_W ≤ s.pipeX1 ∧ -PIPE_W ≤ s.pipeX2 ∧
  (s.pipeX2 - s.pipeX1 = 64 ∨ s.pipeX2 - s.pipeX1 = -75) ∧
  0 ≤ s.score

end FlappyGame

/-! ## Theorems: Buttons.h -/

theorem usub_eq_sub {a b : Nat} (hba : b ≤ a) (ha : a < ULONG_MOD) : usub a b = a - b := by
  unfold usub
  unfold ULONG_MOD at *
  omega

theorem usub_self {a : Nat} : usub a a = 0 := by
  unfold usub ULONG_MOD
  omega

/-- A call that returns at the debounce test leaves everything but the raw
bookkeeping alone. -/
theorem update_of_settling (b : Button) (raw : Bool) (now : Nat)
    (h : usub now (if raw != b.lastRaw then now else b.lastChangeMs) < DEBOUNCE_MS) :
    Button.update b raw now =
      (BtnEvent.BTN_NONE,
        if raw != b.lastRaw then { b with lastRaw := raw, lastChangeMs := now } else b) := by
  unfold Button.update
  by_cases hr : (raw != b.lastRaw) = true
  · simp only [hr, if_true] at h ⊢
    simp [h]
  · simp only [hr] at h ⊢
    simp at h ⊢
    intro h2
    omega

/-- A call on an idle button (stable idle, not down) that sees the idle level
does nothing but return `BTN_NONE`. -/
theorem update_idle_high (b : Button) (now : Nat)
    (hraw : b.lastRaw = true) (hst : b.stable = true) (hdn : b.isDown = false) :
    Button.update b true now = (BtnEvent.BTN_NONE, b) := by
  unfold Button.update Button.acceptStable Button.fireLong
  simp [hraw, hst, hdn]

theorem run_settling_aux (calls : List Call) :
    ∀ (b : Button) (chg : Option Nat) (tlast : Nat),
      b.stable = true → b.isDown = false →
      (chg = none → b.lastRaw = true) →
      (∀ t, chg = some t → b.lastChangeMs = t ∧ t ≤ tlast) →
      Monotone32 tlast calls → Settling b.lastRaw chg calls →
      ∀ r ∈ Button.run b calls, r.1 = BtnEvent.BTN_NONE ∧ r.2.stable = true := by
  induction calls with
  | nil => intro b chg tlast _ _ _ _ _ _ r hr; simp [Button.run] at hr
  | cons c cs ih =>
    intro b chg tlast hst hdn hnone hsome hmono hset r hr
    obtain ⟨raw, now⟩ := c
    simp only [Monotone32] at hmono
    obtain ⟨hle, hlt, hmono2⟩ := hmono
    simp only [Settling] at hset
    obtain ⟨hnow, hset2⟩ := hset
    simp only [Button.run, List.mem_cons] at hr
    by_cases hch : (raw != b.lastRaw) = true
    · -- this call observes a change
      simp only [hch, if_true] at hnow hset2
      have hupd := update_of_settling b raw now (by simp [hch, usub_self, DEBOUNCE_MS])
      simp only [hch, if_true] at hupd
      rw [hupd] at hr
      rcases hr with hr | hr
      · subst hr; exact ⟨rfl, hst⟩
      · exact ih { b with lastRaw := raw, lastChangeMs := now } (some now) now hst hdn
          (by simp) (by simp) hmono2 hset2 r hr
    · -- same level as the previous call
      have hraw : raw = b.lastRaw := by simpa using hch
      simp only [hch] at hnow hset2
      simp only [Bool.false_eq_true, if_false] at hnow hset2
      cases hc : chg with
      | none =>
        have hl := hnone hc
        rw [hl] at hraw
        subst hraw
        rw [update_idle_high b now hl hst hdn] at hr
        rcases hr with hr | hr
        · subst hr; exact ⟨rfl, hst⟩
        · refine ih b chg now hst hdn hnone ?_ hmono2 ?_ r hr
          · intro t ht; rw [hc] at ht; cases ht
          · rw [hl]; exact hset2
      | some t =>
        obtain ⟨hlc, htl⟩ := hsome t hc
        rw [hc] at hnow
        simp only at hnow
        have hupd := update_of_settling b raw now (by
          simp only [hch]
          simp only [Bool.false_eq_true, if_false]
          rw [hlc, usub_eq_sub (le_trans htl hle) hlt]; exact hnow)
        simp only [hch] at hupd
        simp only [Bool.false_eq_true, if_false] at hupd
        rw [hupd] at hr
        rcases hr with hr | hr
        · subst hr; exact ⟨rfl, hst⟩
        · refine ih b chg now hst hdn hnone ?_ hmono2 ?_ r hr
          · intro t2 ht2
            obtain ⟨h1, h2⟩ := hsome t2 ht2
            exact ⟨h1, le_trans h2 hle⟩
          · rw [← hraw]; exact hset2

/-- C1. From a freshly constructed `Button`, if the timestamps of the calls
never decrease and every call comes either before any raw change has been
observed or less than `DEBOUNCE_MS` (25 ms) after the most recent call that
observed a raw change, then every call returns `BTN_NONE` and the stable level
stays idle after every call. -/
theorem C1_settling_calls_emit_nothing (calls : List Call)
    (hmono : Monotone32 0 calls) (hset : Settling true none calls) :
    ∀ r ∈ Button.run Button.fresh calls, r.1 = BtnEvent.BTN_NONE ∧ r.2.stable = true :=
  run_settling_aux calls Button.fresh none 0 rfl rfl (fun _ => rfl)
    (fun t ht => by cases ht) hmono hset

theorem C1_settling_calls_emit_nothing_witness :
    Monotone32 0 [(true, 10), (true, 30), (false, 40), (true, 50), (false, 60), (false, 84)] ∧
    Settling true none [(true, 10), (true, 30), (false, 40), (true, 50), (false, 60), (false, 84)] ∧
    ∀ r ∈ Button.run Button.fresh
        [(true, 10), (true, 30), (false, 40), (true, 50), (false, 60), (false, 84)],
      r.1 = BtnEvent.BTN_NONE ∧ r.2.stable = true :=
  ⟨by simp [Monotone32, ULONG_MOD], by simp [Settling, DEBOUNCE_MS],
   C1_settling_calls_emit_nothing _ (by simp [Monotone32, ULONG_MOD])
     (by simp [Settling, DEBOUNCE_MS])⟩

/-! ### Call sequences -/

theorem mono32_append (xs : List Call) :
    ∀ (t : Nat) (c : Call) (ys : List Call), Monotone32 t (xs ++ c :: ys) →
      (∀ x ∈ xs, t ≤ x.2 ∧ x.2 ≤ c.2 ∧ x.2 < ULONG_MOD) ∧ t ≤ c.2 ∧ c.2 < ULONG_MOD ∧
        Monotone32 c.2 ys := by
  induction xs with
  | nil =>
    intro t c ys h
    simp only [List.nil_append, Monotone32] at h
    exact ⟨by simp, h.1, h.2.1, h.2.2⟩
  | cons x xs ih =>
    intro t c ys h
    simp only [List.cons_append, Monotone32] at h
    obtain ⟨h1, h2, h3⟩ := h
    obtain ⟨i1, i2, i3, i4⟩ := ih x.2 c ys h3
    refine ⟨?_, le_trans h1 i2, i3, i4⟩
    intro y hy
    rcases List.mem_cons.mp hy with hy | hy
    · subst hy; exact ⟨h1, i2, h2⟩
    · obtain ⟨j1, j2, j3⟩ := i1 y hy
      exact ⟨le_trans h1 j1, j2, j3⟩

theorem run_append (xs : List Call) :
    ∀ (b : Button) (ys : List Call),
      Button.run b (xs ++ ys) = Button.run b xs ++ Button.run (Button.after b xs) ys := by
  induction xs with
  | nil => intro b ys; rfl
  | cons x xs ih => intro b ys; simp [Button.run, Button.after, ih]

theorem after_append (xs : List Call) :
    ∀ (b : Button) (ys : List Call),
      Button.after b (xs ++ ys) = Button.after (Button.after b xs) ys := by
  induction xs with
  | nil => intro b ys; rfl
  | cons x xs ih => intro b ys; simp [Button.after, ih]

/-- Calls that each leave the fields alone and return `BTN_NONE`. -/
theorem run_fixed (xs : List Call) (b : Button)
    (h : ∀ x ∈ xs, Button.update b x.1 x.2 = (BtnEvent.BTN_NONE, b)) :
    (∀ r ∈ Button.run b xs, r = (BtnEvent.BTN_NONE, b)) ∧ Button.after b xs = b := by
  induction xs with
  | nil => simp [Button.run, Button.after]
  | cons x xs ih =>
    have hx := h x (List.mem_cons_self _ _)
    have ih2 := ih (fun y hy => h y (List.mem_cons_of_mem _ hy))
    simp only [Button.run, Button.after, hx, List.mem_cons]
    refine ⟨?_, ih2.2⟩
    intro r hr
    rcases hr with hr | hr
    · exact hr
    · exact ih2.1 r hr

theorem update_lastChangeMs (b : Button) (raw : Bool) (now : Nat) :
    (Button.update b raw now).2.lastChangeMs =
      if raw != b.lastRaw then now else b.lastChangeMs := by
  obtain ⟨lr, st, lc, dn, lf, ds⟩ := b
  cases raw <;> cases lr <;> cases st <;> cases dn <;> cases lf <;>
    simp [Button.update, Button.acceptStable, Button.fireLong] <;>
    split_ifs <;> rfl

theorem after_lastChangeMs_le (xs : List Call) :
    ∀ (b : Button) (u : Nat), b.lastChangeMs ≤ u → (∀ x ∈ xs, x.2 ≤ u) →
      (Button.after b xs).lastChangeMs ≤ u := by
  induction xs with
  | nil => intro b u h _; exact h
  | cons x xs ih =>
    intro b u h hx
    simp only [Button.after]
    apply ih
    · rw [update_lastChangeMs]
      split_ifs
      · exact hx x (List.mem_cons_self _ _)
      · exact h
    · exact fun y hy => hx y (List.mem_cons_of_mem _ hy)

/-! ### Single calls in each phase of a press -/

/-- The call that accepts a press: it sees the pressed level, the level has
been settled for `DEBOUNCE_MS`, and it returns `BTN_NONE` with the press
recorded as starting now. -/
theorem update_press_accept (b : Button) (raw : Bool) (t0 : Nat)
    (hst : b.stable = true) (hacc : (Button.update b raw t0).2.stable = false)
    (hL : b.lastChangeMs ≤ t0) (ht : t0 < ULONG_MOD) :
    raw = false ∧ b.lastChangeMs + DEBOUNCE_MS ≤ t0 ∧
      Button.update b raw t0 =
        (BtnEvent.BTN_NONE,
          { lastRaw := false, stable := false, lastChangeMs := b.lastChangeMs, isDown := true,
            longFired := false, downStartMs := t0 }) := by
  obtain ⟨lr, st, lc, dn, lf, ds⟩ := b
  have hu := usub_eq_sub hL ht
  have hs := @usub_self t0
  simp only at hst hL hu
  subst hst
  cases raw <;> cases lr <;> cases dn <;> cases lf <;>
    simp [Button.update, Button.acceptStable, Button.fireLong, hu, hs, DEBOUNCE_MS, LONG_MS]
      at hacc ⊢ <;>
    (try split_ifs at hacc) <;> (try simp at hacc) <;> (try omega)

/-- A call during the hold: the long press fires in the first call made
`LONG_MS` or more after the press was accepted, and nothing else happens. -/
theorem update_held (b : Button) (t0 now : Nat)
    (h1 : b.lastRaw = false) (h2 : b.stable = false) (h3 : b.isDown = true)
    (h4 : b.downStartMs = t0) (h5 : b.lastChangeMs + DEBOUNCE_MS ≤ t0)
    (hle : t0 ≤ now) (hlt : now < ULONG_MOD) :
    Button.update b false now =
      if b.longFired = false ∧ LONG_MS ≤ now - t0 then
        (BtnEvent.BTN_LONG, { b with longFired := true })
      else (BtnEvent.BTN_NONE, b) := by
  obtain ⟨lr, st, lc, dn, lf, ds⟩ := b
  simp only at h1 h2 h3 h4 h5
  subst h1 h2 h3 h4
  have hu := usub_eq_sub (le_trans (Nat.le_of_add_right_le h5) hle) hlt
  have hd := usub_eq_sub hle hlt
  have h6 : ¬ (now - lc < DEBOUNCE_MS) := by omega
  cases lf <;>
    simp [Button.update, Button.acceptStable, Button.fireLong, hu, hd, h6]

/-- Once the long press has fired, every call either accepts the next press or
returns `BTN_NONE` and leaves the long-fired flag set. -/
theorem update_longFired (b : Button) (raw : Bool) (now : Nat) (h : b.longFired = true) :
    Button.acceptsPress b (raw, now) ∨
      ((Button.update b raw now).1 = BtnEvent.BTN_NONE ∧
        (Button.update b raw now).2.longFired = true) := by
  obtain ⟨lr, st, lc, dn, lf, ds⟩ := b
  simp only at h
  subst h
  unfold Button.acceptsPress
  cases raw <;> cases lr <;> cases st <;> cases dn <;>
    simp [Button.update, Button.acceptStable, Button.fireLong] <;>
    split_ifs <;> simp

theorem runUntilPress_longFired (xs : List Call) :
    ∀ (b : Button), b.longFired = true →
      ∀ r ∈ Button.runUntilPress b xs, r.1 = BtnEvent.BTN_NONE := by
  induction xs with
  | nil => intro b _ r hr; simp [Button.runUntilPress] at hr
  | cons x xs ih =>
    intro b hb r hr
    simp only [Button.runUntilPress] at hr
    split_ifs at hr with hp
    · simp at hr
    · rcases update_longFired b x.1 x.2 hb with h | h
      · exact absurd h hp
      · rcases List.mem_cons.mp hr with hr | hr
        · subst hr; exact h.1
        · exact ih _ h.2 r hr

/-- C2. A press accepted at time `p.2` and then held. Whatever calls `hist`
came before since construction, if the timestamps never decrease and do not
wrap, the held calls `pre` made less than `LONG_MS` (450 ms) after the
acceptance and the accepting call itself return `BTN_NONE`, the first held call
`c` made `LONG_MS` or more after it (equality included) returns `BTN_LONG`, and
every call after that, whether the button is still held or released and
whatever its timestamp, returns `BTN_NONE` until the next press is accepted: one
`BTN_LONG`, no `BTN_SHORT`. -/
theorem C2_held_press_fires_long_once (hist pre rel : List Call) (p c : Call)
    (hmono : Monotone32 0 (hist ++ p :: (pre ++ [c])))
    (hacc : Button.acceptsPress (Button.after Button.fresh hist) p)
    (hheld : ∀ x ∈ pre ++ [c], x.1 = false)
    (hpre : ∀ x ∈ pre, x.2 - p.2 < LONG_MS)
    (hc : LONG_MS ≤ c.2 - p.2) :
    (Button.update (Button.after Button.fresh hist) p.1 p.2).1 = BtnEvent.BTN_NONE ∧
    (∀ r ∈ Button.run (Button.after Button.fresh (hist ++ [p])) pre,
      r.1 = BtnEvent.BTN_NONE) ∧
    (Button.update (Button.after Button.fresh (hist ++ p :: pre)) c.1 c.2).1
      = BtnEvent.BTN_LONG ∧
    (∀ r ∈ Button.runUntilPress (Button.after Button.fresh (hist ++ p :: (pre ++ [c]))) rel,
      r.1 = BtnEvent.BTN_NONE) := by
  obtain ⟨m1, -, m3, m4⟩ := mono32_append hist 0 p (pre ++ [c]) hmono
  obtain ⟨n1, n2, n3, -⟩ := mono32_append pre p.2 c [] m4
  have hL : (Button.after Button.fresh hist).lastChangeMs ≤ p.2 :=
    after_lastChangeMs_le hist Button.fresh p.2 (Nat.zero_le _) (fun x hx => (m1 x hx).2.1)
  obtain ⟨a1, a2, a3⟩ := update_press_accept _ p.1 p.2 hacc.1 hacc.2 hL m3
  rw [after_append hist Button.fresh [p], after_append hist Button.fresh (p :: pre),
    after_append hist Button.fresh (p :: (pre ++ [c]))]
  generalize Button.after Button.fresh hist = b at hL a2 a3 hacc ⊢
  obtain ⟨b0, hb0⟩ : ∃ b0 : Button, b0 = (Button.update b p.1 p.2).2 := ⟨_, rfl⟩
  have g1 : b0.lastRaw = false := by rw [hb0, a3]
  have g2 : b0.stable = false := by rw [hb0, a3]
  have g3 : b0.isDown = true := by rw [hb0, a3]
  have g4 : b0.downStartMs = p.2 := by rw [hb0, a3]
  have g5 : b0.lastChangeMs + DEBOUNCE_MS ≤ p.2 := by rw [hb0, a3]; exact a2
  have g6 : b0.longFired = false := by rw [hb0, a3]
  replace a3 : Button.update b p.1 p.2 = (BtnEvent.BTN_NONE, b0) := by rw [hb0, a3]
  have hfix : ∀ x ∈ pre, Button.update b0 x.1 x.2 = (BtnEvent.BTN_NONE, b0) := by
    intro x hx
    have hx1 := hheld x (by simp [hx])
    obtain ⟨k1, -, k3⟩ := n1 x hx
    rw [hx1, update_held b0 p.2 x.2 g1 g2 g3 g4 g5 k1 k3]
    have := hpre x hx
    rw [if_neg]
    intro hh
    omega
  obtain ⟨f1, f2⟩ := run_fixed pre b0 hfix
  have hcu : Button.update b0 c.1 c.2 = (BtnEvent.BTN_LONG, { b0 with longFired := true }) := by
    rw [hheld c (by simp), update_held b0 p.2 c.2 g1 g2 g3 g4 g5 n2 n3, if_pos ⟨g6, hc⟩]
  have s1 : Button.after b [p] = b0 := by simp [Button.after, a3]
  have s2 : Button.after b (p :: pre) = b0 := by simp [Button.after, a3, f2]
  have s3 : Button.after b (p :: (pre ++ [c])) = { b0 with longFired := true } := by
    simp [Button.after, a3, after_append, f2, hcu]
  refine ⟨by rw [a3], ?_, ?_, ?_⟩
  · rw [s1]; intro r hr; rw [f1 r hr]
  · rw [s2, hcu]
  · rw [s3]; exact runUntilPress_longFired rel _ rfl

theorem C2_held_press_fires_long_once_witness :
    Monotone32 0 (sampleHistory ++ samplePress :: ([(false, 200), (false, 579)] ++ [(false, 580)])) ∧
    Button.acceptsPress (Button.after Button.fresh sampleHistory) samplePress ∧
    (Button.update (Button.after Button.fresh sampleHistory) samplePress.1 samplePress.2).1
      = BtnEvent.BTN_NONE ∧
    (∀ r ∈ Button.run (Button.after Button.fresh (sampleHistory ++ [samplePress]))
        [(false, 200), (false, 579)], r.1 = BtnEvent.BTN_NONE) ∧
    (Button.update (Button.after Button.fresh
        (sampleHistory ++ samplePress :: [(false, 200), (false, 579)])) false 580).1
      = BtnEvent.BTN_LONG ∧
    (∀ r ∈ Button.runUntilPress (Button.after Button.fresh
        (sampleHistory ++ samplePress :: ([(false, 200), (false, 579)] ++ [(false, 580)])))
        [(false, 700), (true, 800), (true, 830), (true, 900)], r.1 = BtnEvent.BTN_NONE) :=
  ⟨by simp [Monotone32, ULONG_MOD, sampleHistory, samplePress], by decide,
   C2_held_press_fires_long_once sampleHistory [(false, 200), (false, 579)]
     [(false, 700), (true, 800), (true, 830), (true, 900)] samplePress (false, 580)
     (by simp [Monotone32, ULONG_MOD, sampleHistory, samplePress]) (by decide)
     (by simp) (by simp [LONG_MS, samplePress]) (by simp [LONG_MS, samplePress])⟩

theorem run_fixed_events (xs : List Call) (b : Button)
    (h : ∀ x ∈ xs, Button.update b x.1 x.2 = (BtnEvent.BTN_NONE, b)) :
    (Button.run b xs).map Prod.fst = List.replicate xs.length BtnEvent.BTN_NONE := by
  induction xs with
  | nil => rfl
  | cons x xs ih =>
    have hx := h x (List.mem_cons_self _ _)
    have ih2 := ih (fun y hy => h y (List.mem_cons_of_mem _ hy))
    simp only [Button.run, hx, List.map_cons, List.length_cons, List.replicate_succ, ih2]

/-- The call that first sees the button released during a hold only restarts
the settling clock. -/
theorem update_release_seen (b : Button) (tr : Nat) (h1 : b.lastRaw = false) :
    Button.update b true tr =
      (BtnEvent.BTN_NONE, { b with lastRaw := true, lastChangeMs := tr }) := by
  have h := update_of_settling b true tr (by simp [h1, usub_self, DEBOUNCE_MS])
  simpa [h1] using h

/-- A call that sees the released level less than `DEBOUNCE_MS` after the
release was first seen does nothing. -/
theorem update_release_settling (b : Button) (tr now : Nat) (h1 : b.lastRaw = true)
    (h2 : b.lastChangeMs = tr) (hle : tr ≤ now) (hlt : now < ULONG_MOD)
    (hs : now < tr + DEBOUNCE_MS) :
    Button.update b true now = (BtnEvent.BTN_NONE, b) := by
  have h := update_of_settling b true now (by
    simp only [h1, bne_self_eq_false, Bool.false_eq_true, if_false, h2]
    rw [usub_eq_sub hle hlt]; omega)
  simpa [h1] using h

/-- The call that accepts the release of a press whose long event has not
fired returns `BTN_SHORT`, however long ago the press was accepted. -/
theorem update_release_accept (b : Button) (tr now : Nat) (h1 : b.lastRaw = true)
    (h2 : b.stable = false) (h3 : b.isDown = true) (h4 : b.longFired = false)
    (h5 : b.lastChangeMs = tr) (hle : tr + DEBOUNCE_MS ≤ now) (hlt : now < ULONG_MOD) :
    Button.update b true now =
      (BtnEvent.BTN_SHORT, { b with stable := true, isDown := false }) := by
  obtain ⟨lr, st, lc, dn, lf, ds⟩ := b
  simp only at h1 h2 h3 h4 h5
  subst h1 h2 h3 h4 h5
  have hu := usub_eq_sub (Nat.le_of_add_right_le hle) hlt
  have h6 : ¬ (now - lc < DEBOUNCE_MS) := by omega
  simp [Button.update, Button.acceptStable, Button.fireLong, hu, h6]

/-- C3. A press accepted at time `p.2`, held through the calls `hold`, whose
release is first seen by a call at time `tr` earlier than `p.2 + LONG_MS` and
after which the raw level stays idle. Whatever calls `hist` came before since
construction, if the timestamps never decrease and do not wrap, the events
returned from the accepting call on are: `BTN_NONE` for the accepting call, for
every held call, for the call that sees the release and for every call less
than `DEBOUNCE_MS` after it; `BTN_SHORT` for the first call `DEBOUNCE_MS` or
more after it (at time `ta`, which may be later than `p.2 + LONG_MS`); and
`BTN_NONE` for every call after that. So exactly one call returns `BTN_SHORT`
and none returns `BTN_LONG`. -/
theorem C3_short_press_fires_short_once (hist hold settle rest : List Call) (p : Call)
    (tr ta : Nat)
    (hmono : Monotone32 0
      (hist ++ p :: (hold ++ (true, tr) :: (settle ++ (true, ta) :: rest))))
    (hacc : Button.acceptsPress (Button.after Button.fresh hist) p)
    (hhold : ∀ x ∈ hold, x.1 = false)
    (htr : tr < p.2 + LONG_MS)
    (hsettle : ∀ x ∈ settle, x.1 = true ∧ x.2 < tr + DEBOUNCE_MS)
    (hta : tr + DEBOUNCE_MS ≤ ta)
    (hrest : ∀ x ∈ rest, x.1 = true) :
    (Button.run (Button.after Button.fresh hist)
        (p :: (hold ++ (true, tr) :: (settle ++ (true, ta) :: rest)))).map Prod.fst =
      BtnEvent.BTN_NONE :: (List.replicate hold.length BtnEvent.BTN_NONE ++
        BtnEvent.BTN_NONE :: (List.replicate settle.length BtnEvent.BTN_NONE ++
          BtnEvent.BTN_SHORT :: List.replicate rest.length BtnEvent.BTN_NONE)) := by
  obtain ⟨m1, -, m3, m4⟩ := mono32_append hist 0 p _ hmono
  obtain ⟨n1, n2, n3, n4⟩ := mono32_append hold p.2 (true, tr) _ m4
  obtain ⟨o1, o2, o3, o4⟩ := mono32_append settle tr (true, ta) _ n4
  have hL : (Button.after Button.fresh hist).lastChangeMs ≤ p.2 :=
    after_lastChangeMs_le hist Button.fresh p.2 (Nat.zero_le _) (fun x hx => (m1 x hx).2.1)
  obtain ⟨-, a2, a3⟩ := update_press_accept _ p.1 p.2 hacc.1 hacc.2 hL m3
  generalize Button.after Button.fresh hist = b at hL a2 a3 hacc ⊢
  obtain ⟨b0, hb0⟩ : ∃ b0 : Button, b0 = (Button.update b p.1 p.2).2 := ⟨_, rfl⟩
  have g1 : b0.lastRaw = false := by rw [hb0, a3]
  have g2 : b0.stable = false := by rw [hb0, a3]
  have g3 : b0.isDown = true := by rw [hb0, a3]
  have g4 : b0.downStartMs = p.2 := by rw [hb0, a3]
  have g5 : b0.lastChangeMs + DEBOUNCE_MS ≤ p.2 := by rw [hb0, a3]; exact a2
  have g6 : b0.longFired = false := by rw [hb0, a3]
  replace a3 : Button.update b p.1 p.2 = (BtnEvent.BTN_NONE, b0) := by rw [hb0, a3]
  -- the hold
  have hfix0 : ∀ x ∈ hold, Button.update b0 x.1 x.2 = (BtnEvent.BTN_NONE, b0) := by
    intro x hx
    obtain ⟨k1, k2, k3⟩ := n1 x hx
    rw [hhold x hx, update_held b0 p.2 x.2 g1 g2 g3 g4 g5 k1 k3, if_neg]
    intro hh
    simp only at k2
    omega
  -- the release is seen
  obtain ⟨b1, hb1⟩ : ∃ b1 : Button, b1 = { b0 with lastRaw := true, lastChangeMs := tr } :=
    ⟨_, rfl⟩
  have hrel : Button.update b0 true tr = (BtnEvent.BTN_NONE, b1) := by
    rw [hb1]; exact update_release_seen b0 tr g1
  have hfix1 : ∀ x ∈ settle, Button.update b1 x.1 x.2 = (BtnEvent.BTN_NONE, b1) := by
    intro x hx
    obtain ⟨k1, -, k3⟩ := o1 x hx
    rw [(hsettle x hx).1]
    exact update_release_settling b1 tr x.2 (by rw [hb1]) (by rw [hb1]) k1 k3 (hsettle x hx).2
  -- the release is accepted
  obtain ⟨b2, hb2⟩ : ∃ b2 : Button, b2 = { b1 with stable := true, isDown := false } :=
    ⟨_, rfl⟩
  have hshort : Button.update b1 true ta = (BtnEvent.BTN_SHORT, b2) := by
    rw [hb2]
    exact update_release_accept b1 tr ta (by rw [hb1]) (by rw [hb1]; exact g2)
      (by rw [hb1]; exact g3) (by rw [hb1]; exact g6) (by rw [hb1]) hta o3
  have hfix2 : ∀ x ∈ rest, Button.update b2 x.1 x.2 = (BtnEvent.BTN_NONE, b2) := by
    intro x hx
    rw [hrest x hx]
    exact update_idle_high b2 x.2 (by rw [hb2, hb1]) (by rw [hb2]) (by rw [hb2])
  simp only [Button.run, a3, run_append, (run_fixed hold b0 hfix0).2, hrel,
    (run_fixed settle b1 hfix1).2, hshort, List.map_cons, List.map_append,
    run_fixed_events hold b0 hfix0, run_fixed_events settle b1 hfix1,
    run_fixed_events rest b2 hfix2]

theorem C3_short_press_fires_short_once_witness :
    Monotone32 0 (sampleHistory ++ samplePress ::
      ([(false, 300)] ++ (true, 570) :: ([(true, 580), (true, 594)] ++ (true, 595) :: [(true, 700)]))) ∧
    Button.acceptsPress (Button.after Button.fresh sampleHistory) samplePress ∧
    (Button.run (Button.after Button.fresh sampleHistory)
        (samplePress ::
          ([(false, 300)] ++ (true, 570) :: ([(true, 580), (true, 594)] ++ (true, 595) :: [(true, 700)])))).map
        Prod.fst =
      [BtnEvent.BTN_NONE, BtnEvent.BTN_NONE, BtnEvent.BTN_NONE, BtnEvent.BTN_NONE,
        BtnEvent.BTN_NONE, BtnEvent.BTN_SHORT, BtnEvent.BTN_NONE] :=
  ⟨by simp [Monotone32, ULONG_MOD, sampleHistory, samplePress], by decide,
   C3_short_press_fires_short_once sampleHistory [(false, 300)] [(true, 580), (true, 594)]
     [(true, 700)] samplePress 570 595
     (by simp [Monotone32, ULONG_MOD, sampleHistory, samplePress]) (by decide)
     (by simp) (by simp [LONG_MS, samplePress]) (by simp [DEBOUNCE_MS])
     (by simp [DEBOUNCE_MS]) (by simp)⟩

/-! ## Theorems: Input.h -/

/-- C4. `applyDeadband`, for any dead-band: the first sample on a channel
(cache at its initial `-1`) is returned and cached; with a non-negative cached
value `c`, a sample `v` with `|v - c| < deadBand` returns `c` and leaves the
cache at `c`, and a sample with `|v - c| ≥ deadBand` is returned and cached. -/
theorem C4_applyDeadband (m : InputManager) (v c : Int) (hc : 0 ≤ c) :
    m.applyDeadband v (-1) = (v, v) ∧
    m.applyDeadband v c = if |v - c| < m.deadBand then (c, c) else (v, v) := by
  have hc2 : ¬ c < 0 := not_lt.mpr hc
  exact ⟨by simp [InputManager.applyDeadband], by simp [InputManager.applyDeadband, hc2]⟩

theorem C4_applyDeadband_witness :
    (0 : Int) ≤ 95 ∧
    (InputManager.new 8).applyDeadband 100 (-1) = (100, 100) ∧
    (InputManager.new 8).applyDeadband 100 95 =
      if |(100 : Int) - 95| < (InputManager.new 8).deadBand then (95, 95) else (100, 100) :=
  ⟨by decide, C4_applyDeadband (InputManager.new 8) 100 95 (by decide)⟩

/-- With a non-positive dead-band the filter is off: every sample is returned
and cached. -/
theorem applyDeadband_off (m : InputManager) (v last : Int) (hd : m.deadBand ≤ 0) :
    m.applyDeadband v last = (v, v) := by
  unfold InputManager.applyDeadband
  split_ifs with h1 h2
  · rfl
  · exact absurd (lt_of_lt_of_le h2 hd) (not_lt.mpr (abs_nonneg _))
  · rfl

/-- C5, as stated, fails: construction with an empty game list and with a zero
dead-band both yield an object, and a poll runs on each. The controller built
with `gameCount = 0` goes on to render the main menu (asking `games[0]` for its
name), the sampler built with `deadBand = 0` returns a snapshot. -/
theorem C5_construction_does_not_reject :
    (GameManager.new 0).gameCount = 0 ∧
    GameManager.update (GameManager.new 0).begin {} =
      some ({ gameCount := 0 }, [Effect.gameName 0, Effect.display, Effect.delay 20]) ∧
    (InputManager.new 0).deadBand = 0 ∧
    (InputManager.read (InputManager.new 0) sampleRead).1 = { potL := 100, potR := 200 } := by
  refine ⟨rfl, by decide, rfl, by decide⟩

/-- C5, amended. Neither constructor validates its argument: for every
`gameCount` and every `deadBand` construction yields an object holding the
value as given, in its initial state. On a sampler whose dead-band is
non-positive every `read` runs with the filter off: both analog samples come
back unchanged and are cached, whatever the fields were. -/
theorem C5_construction_accepts_every_configuration (gameCount deadBand : Int)
    (m : InputManager) (hw : Sample) (hd : m.deadBand ≤ 0) :
    GameManager.new gameCount =
      { gameCount := gameCount, state := ScreenState.MAIN_MENU, selected := 0, active := 0 } ∧
    InputManager.new deadBand =
      { deadBand := deadBand, btnStart := Button.fresh, btnSelect := Button.fresh,
        lastL := -1, lastR := -1 } ∧
    (InputManager.read m hw).1.potL = hw.adcL ∧ (InputManager.read m hw).1.potR = hw.adcR ∧
    (InputManager.read m hw).2.lastL = hw.adcL ∧ (InputManager.read m hw).2.lastR = hw.adcR := by
  refine ⟨rfl, rfl, ?_⟩
  simp only [InputManager.read, applyDeadband_off m _ _ hd, and_self]

theorem C5_construction_accepts_every_configuration_witness :
    (InputManager.new (-4)).deadBand ≤ 0 ∧
    GameManager.new 0 =
      { gameCount := 0, state := ScreenState.MAIN_MENU, selected := 0, active := 0 } ∧
    InputManager.new (-4) =
      { deadBand := -4, btnStart := Button.fresh, btnSelect := Button.fresh,
        lastL := -1, lastR := -1 } ∧
    (InputManager.read (InputManager.new (-4)) sampleRead).1.potL = sampleRead.adcL ∧
    (InputManager.read (InputManager.new (-4)) sampleRead).1.potR = sampleRead.adcR ∧
    (InputManager.read (InputManager.new (-4)) sampleRead).2.lastL = sampleRead.adcL ∧
    (InputManager.read (InputManager.new (-4)) sampleRead).2.lastR = sampleRead.adcR :=
  ⟨by decide,
   C5_construction_accepts_every_configuration 0 (-4) (InputManager.new (-4)) sampleRead
     (by decide)⟩

/-! ## Theorems: GameManager.h -/

theorem isPress_iff (e : BtnEvent) :
    e.isPress = true ↔ (e = BtnEvent.BTN_SHORT ∨ e = BtnEvent.BTN_LONG) := by
  cases e <;> simp [BtnEvent.isPress]

/-- C6, as stated, fails: in `GAME_MENU` a Short event on the start button does
not reset the game and does not enter the game (it goes back to the main
menu), and a Short event on the select button does not go back to the main
menu (it resets the game and enters it). -/
theorem C6_start_and_select_are_swapped :
    sampleGameMenu.state = ScreenState.GAME_MENU ∧
    GameManager.update sampleGameMenu { startEv := BtnEvent.BTN_SHORT } =
      some ({ sampleGameMenu with state := ScreenState.MAIN_MENU }, [Effect.delay 80]) ∧
    ¬ (∃ r, GameManager.update sampleGameMenu { startEv := BtnEvent.BTN_SHORT } = some r ∧
        r.1.state = ScreenState.IN_GAME ∧ Effect.gameReset sampleGameMenu.active ∈ r.2) ∧
    GameManager.update sampleGameMenu { selectEv := BtnEvent.BTN_SHORT } =
      some ({ sampleGameMenu with state := ScreenState.IN_GAME },
        [Effect.gameReset 1, Effect.delay 80]) ∧
    ¬ (∃ r, GameManager.update sampleGameMenu { selectEv := BtnEvent.BTN_SHORT } = some r ∧
        r.1.state = ScreenState.MAIN_MENU) := by
  have h1 : GameManager.update sampleGameMenu { startEv := BtnEvent.BTN_SHORT } =
      some ({ sampleGameMenu with state := ScreenState.MAIN_MENU }, [Effect.delay 80]) := by
    decide
  have h2 : GameManager.update sampleGameMenu { selectEv := BtnEvent.BTN_SHORT } =
      some ({ sampleGameMenu with state := ScreenState.IN_GAME },
        [Effect.gameReset 1, Effect.delay 80]) := by
    decide
  refine ⟨rfl, h1, ?_, h2, ?_⟩
  · rintro ⟨r, hr, hs, -⟩
    rw [h1] at hr
    cases hr
    exact absurd hs (by decide)
  · rintro ⟨r, hr, hs⟩
    rw [h2] at hr
    cases hr
    exact absurd hs (by decide)

/-- C6, amended. In `GAME_MENU`, a Short or Long event on the start button
moves the state back to `MAIN_MENU` without resetting the game (the only
effect is the settle delay); otherwise a Short or Long event on the select
button calls `reset` on the active game and moves the state to `IN_GAME`;
otherwise the game menu is redrawn and nothing changes. -/
theorem C6_game_menu (g : GameManager) (inp : Inputs)
    (hst : g.state = ScreenState.GAME_MENU) :
    GameManager.update g inp = some (
      if inp.startEv = BtnEvent.BTN_SHORT ∨ inp.startEv = BtnEvent.BTN_LONG then
        ({ g with state := ScreenState.MAIN_MENU }, [Effect.delay 80])
      else if inp.selectEv = BtnEvent.BTN_SHORT ∨ inp.selectEv = BtnEvent.BTN_LONG then
        ({ g with state := ScreenState.IN_GAME }, [Effect.gameReset g.active, Effect.delay 80])
      else (g, [Effect.gameName g.active, Effect.gameHint g.active, Effect.display,
        Effect.delay 20])) := by
  simp only [GameManager.update, hst, GameManager.updateGameMenu, isPress_iff,
    GameManager.renderGameMenu]

theorem C6_game_menu_witness :
    sampleGameMenu.state = ScreenState.GAME_MENU ∧
    GameManager.update sampleGameMenu { selectEv := BtnEvent.BTN_LONG } =
      some ({ sampleGameMenu with state := ScreenState.IN_GAME },
        [Effect.gameReset 1, Effect.delay 80]) :=
  ⟨rfl, C6_game_menu sampleGameMenu { selectEv := BtnEvent.BTN_LONG } rfl⟩

/-- C7, as stated, fails: in `IN_GAME` a Long event on the select button does
not leave the game (the game is updated and rendered), and neither does a
Short event on it. -/
theorem C7_select_does_not_leave_game :
    sampleInGame.state = ScreenState.IN_GAME ∧
    GameManager.update sampleInGame { selectEv := BtnEvent.BTN_LONG } =
      some (sampleInGame, [Effect.gameUpdate 1 { selectEv := BtnEvent.BTN_LONG },
        Effect.gameRender 1]) ∧
    ¬ (∃ r, GameManager.update sampleInGame { selectEv := BtnEvent.BTN_LONG } = some r ∧
        r.1.state = ScreenState.MAIN_MENU) ∧
    GameManager.update sampleInGame { selectEv := BtnEvent.BTN_SHORT } =
      some (sampleInGame, [Effect.gameUpdate 1 { selectEv := BtnEvent.BTN_SHORT },
        Effect.gameRender 1]) ∧
    ¬ (∃ r, GameManager.update sampleInGame { selectEv := BtnEvent.BTN_SHORT } = some r ∧
        r.1.state = ScreenState.GAME_MENU) := by
  have h1 : GameManager.update sampleInGame { selectEv := BtnEvent.BTN_LONG } =
      some (sampleInGame, [Effect.gameUpdate 1 { selectEv := BtnEvent.BTN_LONG },
        Effect.gameRender 1]) := by
    decide
  have h2 : GameManager.update sampleInGame { selectEv := BtnEvent.BTN_SHORT } =
      some (sampleInGame, [Effect.gameUpdate 1 { selectEv := BtnEvent.BTN_SHORT },
        Effect.gameRender 1]) := by
    decide
  refine ⟨rfl, h1, ?_, h2, ?_⟩
  · rintro ⟨r, hr, hs⟩
    rw [h1] at hr
    cases hr
    exact absurd hs (by decide)
  · rintro ⟨r, hr, hs⟩
    rw [h2] at hr
    cases hr
    exact absurd hs (by decide)

/-- C7, amended. In `IN_GAME`, a Long event on the start button moves the state
to `MAIN_MENU`, a Short event on the start button moves it to `GAME_MENU`
(each with only the settle delay as effect), and in every other poll, whatever
the select event, the fields are unchanged (the state stays `IN_GAME`) and the
effects are exactly one `update` of the active game with this snapshot followed
by its `render`. -/
theorem C7_in_game (g : GameManager) (inp : Inputs)
    (hst : g.state = ScreenState.IN_GAME) :
    GameManager.update g inp = some (
      if inp.startEv = BtnEvent.BTN_LONG then
        ({ g with state := ScreenState.MAIN_MENU }, [Effect.delay 120])
      else if inp.startEv = BtnEvent.BTN_SHORT then
        ({ g with state := ScreenState.GAME_MENU }, [Effect.delay 120])
      else (g, [Effect.gameUpdate g.active inp, Effect.gameRender g.active])) := by
  simp only [GameManager.update, hst, GameManager.updateInGame]

theorem C7_in_game_witness :
    sampleInGame.state = ScreenState.IN_GAME ∧
    GameManager.update sampleInGame { startEv := BtnEvent.BTN_LONG } =
      some ({ sampleInGame with state := ScreenState.MAIN_MENU }, [Effect.delay 120]) :=
  ⟨rfl, C7_in_game sampleInGame { startEv := BtnEvent.BTN_LONG } rfl⟩

/-- C8. In `MAIN_MENU` with `gameCount ≥ 1` the call succeeds and: a Short
select event sets `selected` to `(selected + 1) % gameCount` (the C++ operator,
which for `selected ≥ 0` is the mathematical remainder) and any other select
event leaves it alone; a Short or Long start event sets `active` to the new
`selected` and moves to `GAME_MENU`; with no start event the state stays
`MAIN_MENU` and `active` is unchanged. -/
theorem C8_main_menu (g : GameManager) (inp : Inputs)
    (hst : g.state = ScreenState.MAIN_MENU) (hn : 1 ≤ g.gameCount) :
    ∃ g2 eff, GameManager.update g inp = some (g2, eff) ∧
      g2.gameCount = g.gameCount ∧
      g2.selected = (if inp.selectEv = BtnEvent.BTN_SHORT then
        Int.tmod (g.selected + 1) g.gameCount else g.selected) ∧
      (0 ≤ g.selected →
        Int.tmod (g.selected + 1) g.gameCount = (g.selected + 1) % g.gameCount) ∧
      g2.state = (if inp.startEv = BtnEvent.BTN_SHORT ∨ inp.startEv = BtnEvent.BTN_LONG then
        ScreenState.GAME_MENU else ScreenState.MAIN_MENU) ∧
      g2.active = (if inp.startEv = BtnEvent.BTN_SHORT ∨ inp.startEv = BtnEvent.BTN_LONG then
        g2.selected else g.active) := by
  have hn0 : g.gameCount ≠ 0 := by omega
  have hmod : 0 ≤ g.selected →
      Int.tmod (g.selected + 1) g.gameCount = (g.selected + 1) % g.gameCount :=
    fun h => Int.tmod_eq_emod (by omega) (by omega)
  simp only [GameManager.update, hst, GameManager.updateMainMenu, cmod, hn0, if_false]
  by_cases hs : inp.selectEv = BtnEvent.BTN_SHORT <;>
    by_cases hp : inp.startEv.isPress = true <;>
    simp [hs, hp, hst, (isPress_iff inp.startEv).symm] <;> exact hmod

theorem C8_main_menu_witness :
    ∃ g2 eff, GameManager.update { gameCount := 3, selected := 2, active := 1 }
        { selectEv := BtnEvent.BTN_SHORT, startEv := BtnEvent.BTN_LONG } = some (g2, eff) ∧
      g2.gameCount = 3 ∧
      g2.selected = 0 ∧
      Int.tmod (2 + 1) 3 = (2 + 1) % 3 ∧
      g2.state = ScreenState.GAME_MENU ∧
      g2.active = g2.selected := by
  obtain ⟨g2, eff, h1, h2, h3, h4, h5, h6⟩ :=
    C8_main_menu { gameCount := 3, selected := 2, active := 1 }
      { selectEv := BtnEvent.BTN_SHORT, startEv := BtnEvent.BTN_LONG } rfl (by decide)
  exact ⟨g2, eff, h1, h2, h3, h4 (by decide), h5, h6⟩

/-- One "cycle" poll in the main menu: Short on select, nothing on start. -/
theorem update_cycle (g : GameManager) (inp : Inputs)
    (hst : g.state = ScreenState.MAIN_MENU) (hn : 1 ≤ g.gameCount) (h0 : 0 ≤ g.selected)
    (hsel : inp.selectEv = BtnEvent.BTN_SHORT) (hstart : inp.startEv = BtnEvent.BTN_NONE) :
    GameManager.update g inp =
      some ({ g with selected := (g.selected + 1) % g.gameCount },
        [Effect.gameName ((g.selected + 1) % g.gameCount), Effect.display, Effect.delay 20]) := by
  have hn0 : g.gameCount ≠ 0 := by omega
  have hmod : Int.tmod (g.selected + 1) g.gameCount = (g.selected + 1) % g.gameCount :=
    Int.tmod_eq_emod (by omega) (by omega)
  simp [GameManager.update, hst, GameManager.updateMainMenu, cmod, hn0, hsel, hstart, hmod,
    BtnEvent.isPress, GameManager.renderMainMenu]

theorem updates_cycle (inps : List Inputs) :
    ∀ (g : GameManager), g.state = ScreenState.MAIN_MENU → 1 ≤ g.gameCount →
      0 ≤ g.selected → g.selected < g.gameCount →
      (∀ i ∈ inps, i.selectEv = BtnEvent.BTN_SHORT ∧ i.startEv = BtnEvent.BTN_NONE) →
      ∃ effs, GameManager.updates g inps =
        some ({ g with selected := (g.selected + inps.length) % g.gameCount }, effs) := by
  induction inps with
  | nil =>
    intro g _ _ h0 h1 _
    refine ⟨[], ?_⟩
    simp only [GameManager.updates, List.length_nil, Nat.cast_zero, add_zero,
      Int.emod_eq_of_lt h0 h1]
  | cons i rest ih =>
    intro g hst hn h0 h1 hin
    obtain ⟨hi1, hi2⟩ := hin i (List.mem_cons_self _ _)
    have hstep := update_cycle g i hst hn h0 hi1 hi2
    have hpos : 0 ≤ (g.selected + 1) % g.gameCount := Int.emod_nonneg _ (by omega)
    have hlt : (g.selected + 1) % g.gameCount < g.gameCount := Int.emod_lt_of_pos _ (by omega)
    obtain ⟨effs, hr⟩ := ih { g with selected := (g.selected + 1) % g.gameCount } hst hn hpos hlt
      (fun j hj => hin j (List.mem_cons_of_mem _ hj))
    refine ⟨[Effect.gameName ((g.selected + 1) % g.gameCount), Effect.display,
      Effect.delay 20] ++ effs, ?_⟩
    simp only [GameManager.updates, hstep, hr, List.length_cons, Nat.cast_add, Nat.cast_one]
    simp only [Int.emod_add_emod]
    have e : g.selected + 1 + (rest.length : Int) = g.selected + ((rest.length : Int) + 1) := by
      ring
    rw [e]

/-- C9. For `gameCount ≥ 1`, from a `MAIN_MENU` state with
`0 ≤ selected < gameCount`, `gameCount` consecutive updates whose snapshots
carry a Short select event and no start event all succeed and end in exactly
the fields they started from: state `MAIN_MENU`, the same `selected`, the same
`active`. -/
theorem C9_cycle_returns (g : GameManager) (inps : List Inputs)
    (hn : 1 ≤ g.gameCount) (hst : g.state = ScreenState.MAIN_MENU)
    (h0 : 0 ≤ g.selected) (h1 : g.selected < g.gameCount)
    (hlen : (inps.length : Int) = g.gameCount)
    (hin : ∀ i ∈ inps, i.selectEv = BtnEvent.BTN_SHORT ∧ i.startEv = BtnEvent.BTN_NONE) :
    ∃ effs, GameManager.updates g inps = some (g, effs) := by
  obtain ⟨effs, hr⟩ := updates_cycle inps g hst hn h0 h1 hin
  exact ⟨effs, by rw [hr, hlen, Int.add_emod_self, Int.emod_eq_of_lt h0 h1]⟩

theorem C9_cycle_returns_witness :
    ∃ effs, GameManager.updates { gameCount := 3, selected := 1, active := 2 }
      [{ selectEv := BtnEvent.BTN_SHORT }, { selectEv := BtnEvent.BTN_SHORT, potL := 7 },
        { selectEv := BtnEvent.BTN_SHORT }] =
      some ({ gameCount := 3, selected := 1, active := 2 }, effs) :=
  C9_cycle_returns { gameCount := 3, selected := 1, active := 2 }
    [{ selectEv := BtnEvent.BTN_SHORT }, { selectEv := BtnEvent.BTN_SHORT, potL := 7 },
      { selectEv := BtnEvent.BTN_SHORT }]
    (by decide) rfl (by decide) (by decide) (by decide) (by decide)

/-- One update from a state with both indices in bounds: it succeeds, keeps
`gameCount`, keeps both indices in bounds, and only dereferences `games` at
positions in bounds. -/
theorem update_inBounds (g : GameManager) (inp : Inputs) (hn : 1 ≤ g.gameCount)
    (hb : g.InBounds) :
    ∃ g2 eff, GameManager.update g inp = some (g2, eff) ∧ g2.gameCount = g.gameCount ∧
      g2.InBounds ∧ ∀ e ∈ eff, ∀ i, e.index = some i → 0 ≤ i ∧ i < g.gameCount := by
  obtain ⟨n, st, sel, act⟩ := g
  obtain ⟨b1, b2, b3, b4⟩ := hb
  simp only at hn b1 b2 b3 b4
  have hn0 : n ≠ 0 := by omega
  have hmod : Int.tmod (sel + 1) n = (sel + 1) % n := Int.tmod_eq_emod (by omega) (by omega)
  have hpos : 0 ≤ (sel + 1) % n := Int.emod_nonneg _ hn0
  have hlt : (sel + 1) % n < n := Int.emod_lt_of_pos _ (by omega)
  cases st
  · -- MAIN_MENU
    by_cases hs : inp.selectEv = BtnEvent.BTN_SHORT <;>
      by_cases hp : inp.startEv.isPress = true <;>
      simp only [GameManager.update, GameManager.updateMainMenu, cmod, hn0, hs, hp, hmod,
        GameManager.renderMainMenu, if_true, if_false, Option.map_some', Bool.false_eq_true] <;>
      refine ⟨_, _, rfl, rfl, ?_, ?_⟩ <;>
      simp only [GameManager.InBounds, List.forall_mem_cons, Effect.index] <;>
      (try simp) <;> (try omega)
  · -- GAME_MENU
    by_cases hp : inp.startEv.isPress = true <;>
      by_cases hs : inp.selectEv.isPress = true <;>
      simp only [GameManager.update, GameManager.updateGameMenu, hs, hp,
        GameManager.renderGameMenu, if_true, if_false, Bool.false_eq_true] <;>
      refine ⟨_, _, rfl, rfl, ?_, ?_⟩ <;>
      simp only [GameManager.InBounds, List.forall_mem_cons, Effect.index] <;>
      (try simp) <;> (try omega)
  · -- IN_GAME
    by_cases hl : inp.startEv = BtnEvent.BTN_LONG <;>
      by_cases hs : inp.startEv = BtnEvent.BTN_SHORT <;>
      simp only [GameManager.update, GameManager.updateInGame, hs, hl, if_true, if_false] <;>
      refine ⟨_, _, rfl, rfl, ?_, ?_⟩ <;>
      simp only [GameManager.InBounds, List.forall_mem_cons, Effect.index] <;>
      (try simp) <;> (try omega)

theorem updates_inBounds (inps : List Inputs) :
    ∀ (g : GameManager), 1 ≤ g.gameCount → g.InBounds →
      ∃ g2 effs, GameManager.updates g inps = some (g2, effs) ∧ g2.gameCount = g.gameCount ∧
        g2.InBounds ∧ ∀ e ∈ effs, ∀ i, e.index = some i → 0 ≤ i ∧ i < g.gameCount := by
  induction inps with
  | nil =>
    intro g _ hb
    exact ⟨g, [], rfl, rfl, hb, by simp⟩
  | cons inp rest ih =>
    intro g hn hb
    obtain ⟨g1, e1, h1, h2, h3, h4⟩ := update_inBounds g inp hn hb
    obtain ⟨g2, e2, k1, k2, k3, k4⟩ := ih g1 (h2 ▸ hn) h3
    refine ⟨g2, e1 ++ e2, ?_, k2.trans h2, k3, ?_⟩
    · simp only [GameManager.updates, h1, k1]
    · intro e he i hi
      rcases List.mem_append.mp he with he | he
      · exact h4 e he i hi
      · exact h2 ▸ k4 e he i hi

/-- C10. For `gameCount ≥ 1`, after `begin()` every sequence of `update` calls
with arbitrary snapshots succeeds and ends in a state with
`0 ≤ selected < gameCount` and `0 ≤ active < gameCount`; every position at which
any of those calls dereferences `games` is in `[0, gameCount)`. -/
theorem C10_indices_in_bounds (g0 : GameManager) (inps : List Inputs)
    (hn : 1 ≤ g0.gameCount) :
    ∃ g effs, GameManager.updates g0.begin inps = some (g, effs) ∧
      g.gameCount = g0.gameCount ∧
      (0 ≤ g.selected ∧ g.selected < g0.gameCount ∧ 0 ≤ g.active ∧ g.active < g0.gameCount) ∧
      ∀ e ∈ effs, ∀ i, e.index = some i → 0 ≤ i ∧ i < g0.gameCount := by
  have hb : g0.begin.InBounds := by
    simp only [GameManager.InBounds, GameManager.begin]
    omega
  obtain ⟨g, effs, h1, h2, h3, h4⟩ := updates_inBounds inps g0.begin hn hb
  refine ⟨g, effs, h1, h2, ?_, h4⟩
  have h5 : g.gameCount = g0.gameCount := h2
  simpa only [GameManager.InBounds, h5] using h3

theorem C10_indices_in_bounds_witness :
    ∃ g effs, GameManager.updates (GameManager.new 2).begin
        [{ selectEv := BtnEvent.BTN_SHORT }, { startEv := BtnEvent.BTN_SHORT },
          { selectEv := BtnEvent.BTN_LONG }, { potL := 9 }] = some (g, effs) ∧
      g.gameCount = (GameManager.new 2).gameCount ∧
      (0 ≤ g.selected ∧ g.selected < (GameManager.new 2).gameCount ∧
        0 ≤ g.active ∧ g.active < (GameManager.new 2).gameCount) ∧
      ∀ e ∈ effs, ∀ i, e.index = some i → 0 ≤ i ∧ i < (GameManager.new 2).gameCount :=
  C10_indices_in_bounds (GameManager.new 2)
    [{ selectEv := BtnEvent.BTN_SHORT }, { startEv := BtnEvent.BTN_SHORT },
      { selectEv := BtnEvent.BTN_LONG }, { potL := 9 }] (by decide)

/-! ## Theorems: the down flag of a Button -/

/-- One call keeps `isDown == !stable`. -/
theorem update_isDown (b : Button) (raw : Bool) (now : Nat) (h : b.isDown = !b.stable) :
    (Button.update b raw now).2.isDown = !(Button.update b raw now).2.stable := by
  obtain ⟨lr, st, lc, dn, lf, ds⟩ := b
  simp only at h
  subst h
  cases raw <;> cases lr <;> cases st <;> cases lf <;>
    simp [Button.update, Button.acceptStable, Button.fireLong] <;>
    split_ifs <;> simp

theorem after_isDown (calls : List Call) :
    ∀ (b : Button), b.isDown = (!b.stable) →
      (Button.after b calls).isDown = !(Button.after b calls).stable := by
  induction calls with
  | nil => intro b h; exact h
  | cons c cs ih => intro b h; exact ih _ (update_isDown b c.1 c.2 h)

/-- A call that accepts a release (stable goes from pressed to idle) on a
button that is down: the button is no longer down afterwards and the event is
`BTN_SHORT` if the long event had not fired and `BTN_NONE` if it had. -/
theorem update_accepts_release (b : Button) (raw : Bool) (now : Nat)
    (hdn : b.isDown = true) (hst : b.stable = false)
    (hacc : (Button.update b raw now).2.stable = true) :
    (Button.update b raw now).2.isDown = false ∧
    (Button.update b raw now).1 =
      if b.longFired = false then BtnEvent.BTN_SHORT else BtnEvent.BTN_NONE := by
  obtain ⟨lr, st, lc, dn, lf, ds⟩ := b
  simp only at hdn hst
  subst hdn hst
  cases raw <;> cases lr <;> cases lf <;>
    simp [Button.update, Button.acceptStable, Button.fireLong] at hacc ⊢ <;>
    split_ifs at hacc ⊢ <;> simp at hacc ⊢

/-- C18. After any sequence of `update` calls on a freshly constructed
`Button` (any levels, any timestamps) the down flag equals "stable level is
pressed": `isDown == !stable`. Hence, whatever the next call is, if it accepts
a release (stable goes from pressed to idle) the `isDown` guard of the release
branch holds, the flag is cleared before the long-press test, and the call
returns `BTN_SHORT` when the long event had not fired (and `BTN_NONE` when it
had): never `BTN_LONG`. -/
theorem C18_isDown_tracks_stable (calls : List Call) (raw : Bool) (now : Nat) :
    (Button.after Button.fresh calls).isDown = (!(Button.after Button.fresh calls).stable) ∧
    ((Button.after Button.fresh calls).stable = false →
      (Button.update (Button.after Button.fresh calls) raw now).2.stable = true →
      (Button.after Button.fresh calls).isDown = true ∧
      (Button.update (Button.after Button.fresh calls) raw now).2.isDown = false ∧
      (Button.update (Button.after Button.fresh calls) raw now).1 =
        if (Button.after Button.fresh calls).longFired = false then BtnEvent.BTN_SHORT
        else BtnEvent.BTN_NONE) := by
  have hinv := after_isDown calls Button.fresh rfl
  refine ⟨hinv, ?_⟩
  intro hst hacc
  have hdn : (Button.after Button.fresh calls).isDown = true := by rw [hinv, hst]; rfl
  exact ⟨hdn, update_accepts_release _ raw now hdn hst hacc⟩

theorem C18_isDown_tracks_stable_witness :
    (Button.after Button.fresh (sampleHistory ++ [samplePress, (true, 200)])).isDown = true ∧
    (Button.update (Button.after Button.fresh (sampleHistory ++ [samplePress, (true, 200)]))
      true 700).2.isDown = false ∧
    (Button.update (Button.after Button.fresh (sampleHistory ++ [samplePress, (true, 200)]))
      true 700).1 = BtnEvent.BTN_SHORT :=
  (C18_isDown_tracks_stable (sampleHistory ++ [samplePress, (true, 200)]) true 700).2
    (by decide) (by decide)

/-! ## Theorems: PongGame.h -/

/-- With a positive ADC range whose 48-fold fits a `long`, `mapPotToPaddle`
returns: the clamped pot value scaled by `48 / ADC_MAX_REAL`, rounded down. -/
theorem wrapLong_id (n : Int) (h1 : -2 ^ 31 ≤ n) (h2 : n < 2 ^ 31) : wrapLong n = n := by
  unfold wrapLong
  omega

theorem mapPotToPaddle_eq (s : PongGame) (v : Int) (hadc : 0 < s.ADC_MAX_REAL)
    (hfit : 48 * s.ADC_MAX_REAL < 2 ^ 31) :
    s.mapPotToPaddle v = some (min (max v 0) s.ADC_MAX_REAL * 48 / s.ADC_MAX_REAL) ∧
    0 ≤ min (max v 0) s.ADC_MAX_REAL * 48 / s.ADC_MAX_REAL ∧
    min (max v 0) s.ADC_MAX_REAL * 48 / s.ADC_MAX_REAL ≤ 48 := by
  have hne : s.ADC_MAX_REAL - 0 ≠ 0 := by omega
  have h0 : 0 ≤ min (max v 0) s.ADC_MAX_REAL := by
    simp only [le_min_iff, le_max_iff, le_refl, or_true, true_and]; omega
  have hA : min (max v 0) s.ADC_MAX_REAL ≤ s.ADC_MAX_REAL := min_le_right _ _
  have hlo : 0 ≤ min (max v 0) s.ADC_MAX_REAL * 48 / s.ADC_MAX_REAL :=
    Int.ediv_nonneg (by omega) (by omega)
  have hhi : min (max v 0) s.ADC_MAX_REAL * 48 / s.ADC_MAX_REAL ≤ 48 := by
    calc min (max v 0) s.ADC_MAX_REAL * 48 / s.ADC_MAX_REAL
        ≤ s.ADC_MAX_REAL * 48 / s.ADC_MAX_REAL := Int.ediv_le_ediv hadc (by omega)
      _ = 48 := Int.mul_ediv_cancel_left 48 (by omega)
  refine ⟨?_, hlo, hhi⟩
  have e1 : (if (if v < 0 then 0 else v) > s.ADC_MAX_REAL then s.ADC_MAX_REAL
      else (if v < 0 then 0 else v)) = min (max v 0) s.ADC_MAX_REAL := by
    split_ifs <;> simp only [min_def, max_def] <;> split_ifs <;> omega
  simp only [PongGame.mapPotToPaddle, arduinoMap, e1, hne, if_false, Option.map_some',
    PongGame.SCREEN_HEIGHT, PongGame.PADDLE_H, sub_zero, add_zero]
  have e3 : wrapLong (min (max v 0) s.ADC_MAX_REAL * (64 - 16))
      = min (max v 0) s.ADC_MAX_REAL * 48 :=
    wrapLong_id _ (by omega) (by omega)
  have e2 : Int.tdiv (min (max v 0) s.ADC_MAX_REAL * 48) s.ADC_MAX_REAL
      = min (max v 0) s.ADC_MAX_REAL * 48 / s.ADC_MAX_REAL :=
    Int.tdiv_eq_ediv (by omega) (by omega)
  rw [e3, e2, wrapLong_id _ (by omega) (by omega), if_neg (by omega)]
  show some _ = some _
  congr 1
  show (if (if _ < 0 then 0 else _) > (64 : Int) - 16 then (64 : Int) - 16
    else if _ < 0 then 0 else _) = _
  rw [if_neg (by omega), if_neg (by omega)]

theorem advance_sameTable (s : PongGame) : s.SameTable s.advance := by
  simp only [PongGame.advance, PongGame.SameTable]
  split_ifs <;> simp

theorem bounce_sameTable (s : PongGame) (y : Int) (r : Bool) : s.SameTable (s.bounce y r) := by
  simp [PongGame.bounce, PongGame.SameTable]

/-- A ball bounced by the left paddle is not bounced by the right paddle in the
same update. -/
theorem paddles_of_hitsLeft (a : PongGame) (h : a.advance.hitsLeft = true) :
    a.advance.leftPaddle.rightPaddle = a.advance.bounce a.advance.leftY false ∧
    a.bouncesRight = false := by
  have h1 : a.advance.leftPaddle = a.advance.bounce a.advance.leftY false := by
    simp [PongGame.leftPaddle, h]
  have h2 : (a.advance.bounce a.advance.leftY false).hitsRight = false := by
    simp only [PongGame.hitsRight, PongGame.bounce, PongGame.LEFT_X, PongGame.PADDLE_W,
      PongGame.RIGHT_X, PongGame.SCREEN_WIDTH, PongGame.BALL_SIZE]
    norm_num
  refine ⟨?_, ?_⟩
  · rw [h1, PongGame.rightPaddle, h2]; simp
  · rw [PongGame.bouncesRight, h1, h2]

theorem paddles_of_not_hitsLeft (a : PongGame) (h : a.advance.hitsLeft = false) :
    a.advance.leftPaddle.rightPaddle =
      if a.advance.hitsRight then a.advance.bounce a.advance.rightY true else a.advance := by
  have h1 : a.advance.leftPaddle = a.advance := by simp [PongGame.leftPaddle, h]
  rw [h1, PongGame.rightPaddle]

/-- The ball position after a bounce. -/
theorem bounce_ballX (s : PongGame) (y : Int) (r : Bool) :
    (s.bounce y r).ballX = if r then 119 else 6 := by
  cases r <;>
    simp [PongGame.bounce, PongGame.LEFT_X, PongGame.PADDLE_W, PongGame.RIGHT_X,
      PongGame.SCREEN_WIDTH, PongGame.BALL_SIZE]

theorem bounce_vx (s : PongGame) (y : Int) (r : Bool) :
    (s.bounce y r).vx = -s.vx * (101 / 100) := by
  simp [PongGame.bounce]

theorem advance_vx (s : PongGame) : s.advance.vx = s.vx := by
  simp only [PongGame.advance]
  split_ifs <;> rfl

theorem advance_ballX (s : PongGame) : s.advance.ballX = s.ballX + s.vx := by
  simp only [PongGame.advance]
  split_ifs <;> rfl

/-- The wall reflection, spelled out. -/
theorem advance_wall (s : PongGame) :
    (s.advance.ballY, s.advance.vy) =
      if s.ballY + s.vy ≤ 0 then (0, -s.vy)
      else if s.ballY + s.vy ≥ 61 then (61, -s.vy)
      else (s.ballY + s.vy, s.vy) := by
  simp only [PongGame.advance, PongGame.SCREEN_HEIGHT, PongGame.BALL_SIZE]
  norm_num
  split_ifs with h1 h2 <;> first | rfl | (exfalso; norm_num at *)

theorem resetBall_ballX (s : PongGame) (r : Bool) (g : Rng) :
    (s.resetBall r g).1.ballX = 64 := by
  simp only [PongGame.resetBall, PongGame.SCREEN_WIDTH]
  norm_num

theorem exits_none (p : PongGame) (g : Rng) (h1 : ¬ p.ballX < -10) (h2 : ¬ p.ballX > 138) :
    (p.exitLeft g).1.exitRight (p.exitLeft g).2 = (p, g) := by
  have e1 : p.exitLeft g = (p, g) := by simp only [PongGame.exitLeft, if_neg h1]
  rw [e1]
  simp only [PongGame.exitRight, PongGame.SCREEN_WIDTH]
  norm_num
  intro h
  exact absurd h h2

theorem exits_left (p : PongGame) (g : Rng) (h : p.ballX < -10) :
    (p.exitLeft g).1.exitRight (p.exitLeft g).2 =
      PongGame.resetBall { p with scoreR := p.scoreR + 1 } true g := by
  have e1 : p.exitLeft g = PongGame.resetBall { p with scoreR := p.scoreR + 1 } true g := by
    simp only [PongGame.exitLeft, if_pos h]
  rw [e1]
  simp only [PongGame.exitRight, resetBall_ballX, PongGame.SCREEN_WIDTH]
  norm_num

theorem exits_right (p : PongGame) (g : Rng) (h : p.ballX > 138) :
    (p.exitLeft g).1.exitRight (p.exitLeft g).2 =
      PongGame.resetBall { p with scoreL := p.scoreL + 1 } false g := by
  have h1 : ¬ p.ballX < -10 := by linarith
  have e1 : p.exitLeft g = (p, g) := by simp only [PongGame.exitLeft, if_neg h1]
  rw [e1]
  simp only [PongGame.exitRight, PongGame.SCREEN_WIDTH]
  norm_num
  intro h2
  linarith

/-- What one update does to a state whose paddles are set: exactly one of five
things. The left paddle bounces the ball; or the right paddle does; or the ball
leaves on the left; or it leaves on the right; or it only moves. -/
theorem stepBall_cases (a : PongGame) (g : Rng) :
    (a.bouncesLeft = true ∧ a.bouncesRight = false ∧ a.exitsLeft = false ∧
      a.exitsRight g = false ∧ a.stepBall g = (a.advance.bounce a.advance.leftY false, g)) ∨
    (a.bouncesLeft = false ∧ a.bouncesRight = true ∧ a.exitsLeft = false ∧
      a.exitsRight g = false ∧ a.stepBall g = (a.advance.bounce a.advance.rightY true, g)) ∨
    (a.bouncesLeft = false ∧ a.bouncesRight = false ∧ a.exitsLeft = true ∧
      a.exitsRight g = false ∧ a.advance.ballX < -10 ∧
      a.stepBall g =
        PongGame.resetBall { a.advance with scoreR := a.advance.scoreR + 1 } true g) ∨
    (a.bouncesLeft = false ∧ a.bouncesRight = false ∧ a.exitsLeft = false ∧
      a.exitsRight g = true ∧ a.advance.ballX > 138 ∧
      a.stepBall g =
        PongGame.resetBall { a.advance with scoreL := a.advance.scoreL + 1 } false g) ∨
    (a.bouncesLeft = false ∧ a.bouncesRight = false ∧ a.exitsLeft = false ∧
      a.exitsRight g = false ∧ a.stepBall g = (a.advance, g)) := by
  have key : ∀ p : PongGame, a.advance.leftPaddle.rightPaddle = p →
      (¬ p.ballX < -10 → ¬ p.ballX > 138 →
        a.exitsLeft = false ∧ a.exitsRight g = false ∧ a.stepBall g = (p, g)) ∧
      (p.ballX < -10 →
        a.exitsLeft = true ∧ a.exitsRight g = false ∧
        a.stepBall g = PongGame.resetBall { p with scoreR := p.scoreR + 1 } true g) ∧
      (p.ballX > 138 →
        a.exitsLeft = false ∧ a.exitsRight g = true ∧
        a.stepBall g = PongGame.resetBall { p with scoreL := p.scoreL + 1 } false g) := by
    intro p hp
    refine ⟨?_, ?_, ?_⟩
    · intro h1 h2
      have e := exits_none p g h1 h2
      have e1 : p.exitLeft g = (p, g) := by simp only [PongGame.exitLeft, if_neg h1]
      refine ⟨?_, ?_, ?_⟩
      · simp only [PongGame.exitsLeft, hp, decide_eq_false_iff_not]; exact h1
      · simp only [PongGame.exitsRight, hp, e1, PongGame.SCREEN_WIDTH, decide_eq_false_iff_not]
        norm_num
        linarith [not_lt.mp h2]
      · simp only [PongGame.stepBall, hp]; exact e
    · intro h1
      have e := exits_left p g h1
      have e1 : p.exitLeft g = PongGame.resetBall { p with scoreR := p.scoreR + 1 } true g := by
        simp only [PongGame.exitLeft, if_pos h1]
      refine ⟨?_, ?_, ?_⟩
      · simp only [PongGame.exitsLeft, hp, decide_eq_true_eq]; exact h1
      · simp only [PongGame.exitsRight, hp, e1, resetBall_ballX, PongGame.SCREEN_WIDTH]
        norm_num
      · simp only [PongGame.stepBall, hp]; exact e
    · intro h2
      have h1 : ¬ p.ballX < -10 := by linarith
      have e := exits_right p g h2
      have e1 : p.exitLeft g = (p, g) := by simp only [PongGame.exitLeft, if_neg h1]
      refine ⟨?_, ?_, ?_⟩
      · simp only [PongGame.exitsLeft, hp, decide_eq_false_iff_not]; exact h1
      · simp only [PongGame.exitsRight, hp, e1, PongGame.SCREEN_WIDTH, decide_eq_true_eq]
        norm_num
        exact h2
      · simp only [PongGame.stepBall, hp]; exact e
  by_cases hl : a.advance.hitsLeft = true
  · obtain ⟨hp, hr⟩ := paddles_of_hitsLeft a hl
    obtain ⟨k, -, -⟩ := key _ hp
    have hx := bounce_ballX a.advance a.advance.leftY false
    simp only [Bool.false_eq_true, if_false] at hx
    obtain ⟨k1, k2, k3⟩ := k (by rw [hx]; norm_num) (by rw [hx]; norm_num)
    exact Or.inl ⟨hl, hr, k1, k2, k3⟩
  · have hl2 : a.advance.hitsLeft = false := by simpa using hl
    have hp := paddles_of_not_hitsLeft a hl2
    have hlp : a.advance.leftPaddle = a.advance := by simp [PongGame.leftPaddle, hl2]
    by_cases hr : a.advance.hitsRight = true
    · rw [if_pos hr] at hp
      obtain ⟨k, -, -⟩ := key _ hp
      have hx := bounce_ballX a.advance a.advance.rightY true
      simp only [if_true] at hx
      obtain ⟨k1, k2, k3⟩ := k (by rw [hx]; norm_num) (by rw [hx]; norm_num)
      refine Or.inr (Or.inl ⟨hl2, ?_, k1, k2, k3⟩)
      rw [PongGame.bouncesRight, hlp]; exact hr
    · have hr2 : a.advance.hitsRight = false := by simpa using hr
      rw [if_neg hr] at hp
      obtain ⟨k, kl, kr⟩ := key _ hp
      have hbr : a.bouncesRight = false := by rw [PongGame.bouncesRight, hlp]; exact hr2
      by_cases h1 : a.advance.ballX < -10
      · obtain ⟨k1, k2, k3⟩ := kl h1
        exact Or.inr (Or.inr (Or.inl ⟨hl2, hbr, k1, k2, h1, k3⟩))
      · by_cases h2 : a.advance.ballX > 138
        · obtain ⟨k1, k2, k3⟩ := kr h2
          exact Or.inr (Or.inr (Or.inr (Or.inl ⟨hl2, hbr, k1, k2, h2, k3⟩)))
        · obtain ⟨k1, k2, k3⟩ := k h1 h2
          exact Or.inr (Or.inr (Or.inr (Or.inr ⟨hl2, hbr, k1, k2, k3⟩)))

/-- With a non-zero ADC range the paddles are set and the update returns. -/
theorem update_eq (s : PongGame) (inp : Inputs) (g : Rng) (hadc : s.ADC_MAX_REAL ≠ 0) :
    ∃ l r, s.mapPotToPaddle inp.potL = some l ∧ s.mapPotToPaddle inp.potR = some r ∧
      s.setPaddles inp = some (s.withPaddles l r) ∧
      s.update inp g = some ((s.withPaddles l r).stepBall g) := by
  have h : ∀ v, ∃ y, s.mapPotToPaddle v = some y := by
    intro v
    simp only [PongGame.mapPotToPaddle, arduinoMap, sub_zero, hadc, if_false, Option.map_some']
    exact ⟨_, rfl⟩
  obtain ⟨l, hl⟩ := h inp.potL
  obtain ⟨r, hr⟩ := h inp.potR
  refine ⟨l, r, hl, hr, ?_, ?_⟩
  · simp only [PongGame.setPaddles, hl, hr]
  · simp only [PongGame.update, PongGame.setPaddles, hl, hr, Option.map_some']

/-- The fields after a respawn. -/
theorem resetBall_fields (s : PongGame) (toRight : Bool) (g : Rng) :
    (s.resetBall toRight g).1.ballX = 64 ∧ (s.resetBall toRight g).1.ballY = 32 ∧
    (s.resetBall toRight g).1.vx = (if toRight then s.baseSpeedX else -s.baseSpeedX) ∧
    (s.resetBall toRight g).1.vy =
      (if (Rng.random 0 2 g).1 = 0 then s.baseSpeedY else -s.baseSpeedY) ∧
    |(s.resetBall toRight g).1.vy| = |s.baseSpeedY| ∧
    (s.resetBall toRight g).1.scoreL = s.scoreL ∧
    (s.resetBall toRight g).1.scoreR = s.scoreR := by
  refine ⟨?_, ?_, rfl, rfl, ?_, rfl, rfl⟩
  · simp only [PongGame.resetBall, PongGame.SCREEN_WIDTH]; norm_num
  · simp only [PongGame.resetBall, PongGame.SCREEN_HEIGHT]; norm_num
  · simp only [PongGame.resetBall]
    split_ifs
    · rfl
    · exact abs_neg _

/-- An update that loses the ball on the left or on the right: the score of
the other side goes up by one and the ball is respawned at the centre, served
to the right after an exit on the left and to the left after an exit on the
right. -/
theorem stepBall_exits (a : PongGame) (g : Rng) :
    (a.exitsLeft = true →
      (a.stepBall g).1.scoreR = a.scoreR + 1 ∧ (a.stepBall g).1.scoreL = a.scoreL ∧
      (a.stepBall g).1.ballX = 64 ∧ (a.stepBall g).1.ballY = 32 ∧
      (a.stepBall g).1.vx = a.baseSpeedX ∧
      (a.stepBall g).1.vy =
        (if (Rng.random 0 2 g).1 = 0 then a.baseSpeedY else -a.baseSpeedY) ∧
      |(a.stepBall g).1.vy| = |a.baseSpeedY|) ∧
    (a.exitsRight g = true →
      (a.stepBall g).1.scoreL = a.scoreL + 1 ∧ (a.stepBall g).1.scoreR = a.scoreR ∧
      (a.stepBall g).1.ballX = 64 ∧ (a.stepBall g).1.ballY = 32 ∧
      (a.stepBall g).1.vx = -a.baseSpeedX ∧
      (a.stepBall g).1.vy =
        (if (Rng.random 0 2 g).1 = 0 then a.baseSpeedY else -a.baseSpeedY) ∧
      |(a.stepBall g).1.vy| = |a.baseSpeedY|) := by
  obtain ⟨t1, t2, t3, -, -, t6, t7⟩ := advance_sameTable a
  rcases stepBall_cases a g with h | h | h | h | h
  · exact ⟨fun e => (by rw [h.2.2.1] at e; cases e), fun e => (by rw [h.2.2.2.1] at e; cases e)⟩
  · exact ⟨fun e => (by rw [h.2.2.1] at e; cases e), fun e => (by rw [h.2.2.2.1] at e; cases e)⟩
  · refine ⟨fun _ => ?_, fun e => (by rw [h.2.2.2.1] at e; cases e)⟩
    obtain ⟨r1, r2, r3, r4, r5, r6, r7⟩ :=
      resetBall_fields { a.advance with scoreR := a.advance.scoreR + 1 } true g
    rw [h.2.2.2.2.2]
    simp only at r3 r4 r5 r6 r7
    simp only [if_true] at r3
    exact ⟨by rw [r7, t7], by rw [r6, t6], r1, r2, by rw [r3, t2], by rw [r4, t3],
      by rw [r5, t3]⟩
  · refine ⟨fun e => (by rw [h.2.2.1] at e; cases e), fun _ => ?_⟩
    obtain ⟨r1, r2, r3, r4, r5, r6, r7⟩ :=
      resetBall_fields { a.advance with scoreL := a.advance.scoreL + 1 } false g
    rw [h.2.2.2.2.2]
    simp only at r3 r4 r5 r6 r7
    simp only [Bool.false_eq_true, if_false] at r3
    exact ⟨by rw [r6, t6], by rw [r7, t7], r1, r2, by rw [r3, t2], by rw [r4, t3],
      by rw [r5, t3]⟩
  · exact ⟨fun e => (by rw [h.2.2.1] at e; cases e), fun e => (by rw [h.2.2.2.1] at e; cases e)⟩

/-- The sample game loses the ball on the left. -/
theorem sampleExitLeft_exits : (sampleExitLeft.withPaddles 0 0).exitsLeft = true := by
  simp only [PongGame.exitsLeft, PongGame.withPaddles, sampleExitLeft, PongGame.advance,
    PongGame.leftPaddle, PongGame.rightPaddle, PongGame.hitsLeft, PongGame.hitsRight,
    PongGame.SCREEN_HEIGHT, PongGame.BALL_SIZE, PongGame.LEFT_X, PongGame.PADDLE_W,
    PongGame.PADDLE_H, PongGame.RIGHT_X, PongGame.SCREEN_WIDTH]
  norm_num

theorem sampleExitLeft_paddles :
    sampleExitLeft.mapPotToPaddle 0 = some 0 := by
  have h := (mapPotToPaddle_eq sampleExitLeft 0 (by decide) (by decide)).1
  rw [h]
  decide

/-- C11, as stated, fails: the sample game loses the ball on the left, the
right score goes up by one, and the ball is served with horizontal velocity
`+baseSpeedX` (to the right, toward the side that just scored), not
`-baseSpeedX`. -/
theorem C11_serve_goes_to_the_scorer :
    (sampleExitLeft.withPaddles 0 0).exitsLeft = true ∧
    ∃ res, sampleExitLeft.update {} sampleRng = some res ∧
      res.1.scoreR = sampleExitLeft.scoreR + 1 ∧ res.1.vx = 19 / 10 ∧
      res.1.vx ≠ -sampleExitLeft.baseSpeedX := by
  refine ⟨sampleExitLeft_exits, ?_⟩
  obtain ⟨l, r, hl, hr, -, hu⟩ := update_eq sampleExitLeft {} sampleRng (by decide)
  have hl0 : l = 0 := Option.some.inj (hl.symm.trans sampleExitLeft_paddles)
  have hr0 : r = 0 := Option.some.inj (hr.symm.trans sampleExitLeft_paddles)
  subst hl0 hr0
  obtain ⟨h1, -, -, -, h5, -, -⟩ := (stepBall_exits _ sampleRng).1 sampleExitLeft_exits
  refine ⟨_, hu, h1, ?_, ?_⟩
  · rw [h5]; rfl
  · rw [h5]
    show (19 / 10 : ℚ) ≠ -(19 / 10)
    norm_num

/-- C11, amended. In `update` with `ADC_MAX_REAL > 0` and `baseSpeedX > 0`:
when the ball is past the left bound at the exit tests (`ballX < -10`) the
right score goes up by exactly one and the left score is unchanged, and when
it is past the right bound (`ballX > 138`) the left score goes up by exactly
one and the right score is unchanged; in both cases the ball is respawned at
the centre `(64, 32)` and served toward the side that just scored: horizontal
velocity `+baseSpeedX` (to the right) after the right player scores and
`-baseSpeedX` (to the left) after the left player scores, with
`|vy| = |baseSpeedY|` and the sign of `vy` taken from the draw `random(0, 2)`. -/
theorem C11_exit_scores_and_serves (s : PongGame) (inp : Inputs) (g : Rng)
    (hadc : 0 < s.ADC_MAX_REAL) (hbase : 0 < s.baseSpeedX) :
    ∃ l r res, s.mapPotToPaddle inp.potL = some l ∧ s.mapPotToPaddle inp.potR = some r ∧
      s.update inp g = some res ∧
      ((s.withPaddles l r).exitsLeft = true →
        res.1.scoreR = s.scoreR + 1 ∧ res.1.scoreL = s.scoreL ∧
        res.1.ballX = 64 ∧ res.1.ballY = 32 ∧
        res.1.vx = s.baseSpeedX ∧ 0 < res.1.vx ∧
        res.1.vy = (if (Rng.random 0 2 g).1 = 0 then s.baseSpeedY else -s.baseSpeedY) ∧
        |res.1.vy| = |s.baseSpeedY|) ∧
      ((s.withPaddles l r).exitsRight g = true →
        res.1.scoreL = s.scoreL + 1 ∧ res.1.scoreR = s.scoreR ∧
        res.1.ballX = 64 ∧ res.1.ballY = 32 ∧
        res.1.vx = -s.baseSpeedX ∧ res.1.vx < 0 ∧
        res.1.vy = (if (Rng.random 0 2 g).1 = 0 then s.baseSpeedY else -s.baseSpeedY) ∧
        |res.1.vy| = |s.baseSpeedY|) := by
  obtain ⟨l, r, hl, hr, -, hu⟩ := update_eq s inp g (ne_of_gt hadc)
  obtain ⟨e1, e2⟩ := stepBall_exits (s.withPaddles l r) g
  refine ⟨l, r, _, hl, hr, hu, ?_, ?_⟩
  · intro h
    obtain ⟨h1, h2, h3, h4, h5, h6, h7⟩ := e1 h
    exact ⟨h1, h2, h3, h4, h5, by rw [h5]; exact hbase, h6, h7⟩
  · intro h
    obtain ⟨h1, h2, h3, h4, h5, h6, h7⟩ := e2 h
    refine ⟨h1, h2, h3, h4, h5, ?_, h6, h7⟩
    rw [h5]
    exact neg_lt_zero.mpr hbase

theorem C11_exit_scores_and_serves_witness :
    ∃ res, sampleExitLeft.update {} sampleRng = some res ∧
      res.1.scoreR = sampleExitLeft.scoreR + 1 ∧ res.1.scoreL = sampleExitLeft.scoreL ∧
      res.1.ballX = 64 ∧ res.1.ballY = 32 ∧
      res.1.vx = sampleExitLeft.baseSpeedX ∧ 0 < res.1.vx := by
  obtain ⟨l, r, res, hl, hr, hu, h1, -⟩ :=
    C11_exit_scores_and_serves sampleExitLeft {} sampleRng (by decide)
      (by show (0 : ℚ) < 19 / 10; norm_num)
  have hl0 : l = 0 := Option.some.inj (hl.symm.trans sampleExitLeft_paddles)
  have hr0 : r = 0 := Option.some.inj (hr.symm.trans sampleExitLeft_paddles)
  subst hl0 hr0
  obtain ⟨k1, k2, k3, k4, k5, k6, -, -⟩ := h1 sampleExitLeft_exits
  exact ⟨res, hu, k1, k2, k3, k4, k5, k6⟩

/-! ### Bounces, exits and the scores -/

theorem stepBall_count (a : PongGame) (g : Rng) :
    a.bouncesLeft.toNat + a.bouncesRight.toNat + a.exitsLeft.toNat + (a.exitsRight g).toNat
      ≤ 1 := by
  rcases stepBall_cases a g with h | h | h | h | h <;>
    simp [h.1, h.2.1, h.2.2.1, h.2.2.2.1]

theorem stepBall_scores (a : PongGame) (g : Rng) :
    (a.stepBall g).1.scoreL = a.scoreL + (a.exitsRight g).toNat ∧
    (a.stepBall g).1.scoreR = a.scoreR + a.exitsLeft.toNat := by
  obtain ⟨-, -, -, -, -, t6, t7⟩ := advance_sameTable a
  rcases stepBall_cases a g with h | h | h | h | h
  · obtain ⟨-, -, -, -, -, b6, b7⟩ := bounce_sameTable a.advance a.advance.leftY false
    rw [h.2.2.2.2, h.2.2.1, h.2.2.2.1]
    exact ⟨by simp [b6, t6], by simp [b7, t7]⟩
  · obtain ⟨-, -, -, -, -, b6, b7⟩ := bounce_sameTable a.advance a.advance.rightY true
    rw [h.2.2.2.2, h.2.2.1, h.2.2.2.1]
    exact ⟨by simp [b6, t6], by simp [b7, t7]⟩
  · obtain ⟨-, -, -, -, -, r6, r7⟩ :=
      resetBall_fields { a.advance with scoreR := a.advance.scoreR + 1 } true g
    rw [h.2.2.2.2.2, h.2.2.1, h.2.2.2.1, r6, r7]
    exact ⟨by simp [t6], by simp [t7]⟩
  · obtain ⟨-, -, -, -, -, r6, r7⟩ :=
      resetBall_fields { a.advance with scoreL := a.advance.scoreL + 1 } false g
    rw [h.2.2.2.2.2, h.2.2.1, h.2.2.2.1, r6, r7]
    exact ⟨by simp [t6], by simp [t7]⟩
  · rw [h.2.2.2.2, h.2.2.1, h.2.2.2.1]
    exact ⟨by simp [t6], by simp [t7]⟩

theorem stepBall_bounced (a : PongGame) (g : Rng) :
    (a.bouncesLeft = true → (a.stepBall g).1.ballX = 6) ∧
    (a.bouncesRight = true → (a.stepBall g).1.ballX = 119) := by
  rcases stepBall_cases a g with h | h | h | h | h
  · refine ⟨fun _ => ?_, fun e => (by rw [h.2.1] at e; cases e)⟩
    rw [h.2.2.2.2, bounce_ballX]; rfl
  · refine ⟨fun e => (by rw [h.1] at e; cases e), fun _ => ?_⟩
    rw [h.2.2.2.2, bounce_ballX]; rfl
  · exact ⟨fun e => (by rw [h.1] at e; cases e), fun e => (by rw [h.2.1] at e; cases e)⟩
  · exact ⟨fun e => (by rw [h.1] at e; cases e), fun e => (by rw [h.2.1] at e; cases e)⟩
  · exact ⟨fun e => (by rw [h.1] at e; cases e), fun e => (by rw [h.2.1] at e; cases e)⟩

/-- The left paddle bounces the ball exactly when the ball moves left, its
moved position is at or beyond the paddle face and its vertical extent, after
the wall reflection, overlaps the paddle. -/
theorem bouncesLeft_iff (a : PongGame) :
    a.bouncesLeft = true ↔
      (a.vx < 0 ∧ a.ballX + a.vx ≤ 5 ∧ (a.leftY : ℚ) ≤ a.advance.ballY + 3 ∧
        a.advance.ballY ≤ (a.leftY : ℚ) + 16) := by
  obtain ⟨-, -, -, t4, -, -, -⟩ := advance_sameTable a
  simp only [PongGame.bouncesLeft, PongGame.hitsLeft, advance_vx, advance_ballX, t4,
    PongGame.LEFT_X, PongGame.PADDLE_W, PongGame.PADDLE_H, PongGame.BALL_SIZE,
    Bool.and_eq_true, decide_eq_true_eq]
  push_cast
  norm_num
  tauto

theorem bouncesRight_iff (a : PongGame) :
    a.bouncesRight = true ↔
      (0 < a.vx ∧ 123 ≤ a.ballX + a.vx + 3 ∧ (a.rightY : ℚ) ≤ a.advance.ballY + 3 ∧
        a.advance.ballY ≤ (a.rightY : ℚ) + 16) := by
  obtain ⟨-, -, -, -, t5, -, -⟩ := advance_sameTable a
  by_cases hl : a.advance.hitsLeft = true
  · have hr := (paddles_of_hitsLeft a hl).2
    have hv : a.vx < 0 := ((bouncesLeft_iff a).mp hl).1
    rw [hr]
    constructor
    · intro e; cases e
    · intro e; linarith [e.1]
  · have hl2 : a.advance.hitsLeft = false := by simpa using hl
    have hlp : a.advance.leftPaddle = a.advance := by simp [PongGame.leftPaddle, hl2]
    simp only [PongGame.bouncesRight, hlp, PongGame.hitsRight, advance_vx, advance_ballX, t5,
      PongGame.RIGHT_X, PongGame.SCREEN_WIDTH, PongGame.PADDLE_W, PongGame.PADDLE_H,
      PongGame.BALL_SIZE, Bool.and_eq_true, decide_eq_true_eq]
    push_cast
    norm_num
    tauto

theorem bounce_no_exit (a : PongGame) (g : Rng)
    (h : a.bouncesLeft = true ∨ a.bouncesRight = true) :
    a.exitsLeft = false ∧ a.exitsRight g = false := by
  rcases stepBall_cases a g with k | k | k | k | k
  · exact ⟨k.2.2.1, k.2.2.2.1⟩
  · exact ⟨k.2.2.1, k.2.2.2.1⟩
  · rcases h with h | h
    · rw [k.1] at h; cases h
    · rw [k.2.1] at h; cases h
  · rcases h with h | h
    · rw [k.1] at h; cases h
    · rw [k.2.1] at h; cases h
  · exact ⟨k.2.2.1, k.2.2.2.1⟩

/-- C20. Every `update` that returns (`ADC_MAX_REAL ≠ 0`), from any state: at
most one of the four events left-paddle bounce, right-paddle bounce, exit on
the left, exit on the right occurs. The left paddle bounces the ball exactly
when it moves left (`vx < 0`), its moved position is at or anywhere beyond the
paddle face (`ballX + vx ≤ 5`) and its vertical extent overlaps the paddle;
the ball is then put at `x = 6` and both scores are unchanged. Symmetrically on
the right (`ballX + vx + 3 ≥ 123`, put at `x = 119`). The sum of the two
scores grows by at most one. -/
theorem C20_at_most_one_event (s : PongGame) (inp : Inputs) (g : Rng)
    (hadc : s.ADC_MAX_REAL ≠ 0) :
    ∃ l r res, s.mapPotToPaddle inp.potL = some l ∧ s.mapPotToPaddle inp.potR = some r ∧
      s.update inp g = some res ∧
      (s.withPaddles l r).bouncesLeft.toNat + (s.withPaddles l r).bouncesRight.toNat +
        (s.withPaddles l r).exitsLeft.toNat + ((s.withPaddles l r).exitsRight g).toNat ≤ 1 ∧
      ((s.withPaddles l r).bouncesLeft = true ↔
        (s.vx < 0 ∧ s.ballX + s.vx ≤ 5 ∧ (l : ℚ) ≤ (s.withPaddles l r).advance.ballY + 3 ∧
          (s.withPaddles l r).advance.ballY ≤ (l : ℚ) + 16)) ∧
      ((s.withPaddles l r).bouncesRight = true ↔
        (0 < s.vx ∧ 123 ≤ s.ballX + s.vx + 3 ∧ (r : ℚ) ≤ (s.withPaddles l r).advance.ballY + 3 ∧
          (s.withPaddles l r).advance.ballY ≤ (r : ℚ) + 16)) ∧
      ((s.withPaddles l r).bouncesLeft = true →
        res.1.ballX = 6 ∧ res.1.scoreL = s.scoreL ∧ res.1.scoreR = s.scoreR) ∧
      ((s.withPaddles l r).bouncesRight = true →
        res.1.ballX = 119 ∧ res.1.scoreL = s.scoreL ∧ res.1.scoreR = s.scoreR) ∧
      res.1.scoreL + res.1.scoreR ≤ s.scoreL + s.scoreR + 1 := by
  obtain ⟨l, r, hl, hr, -, hu⟩ := update_eq s inp g hadc
  have hcount := stepBall_count (s.withPaddles l r) g
  obtain ⟨hsl, hsr⟩ := stepBall_scores (s.withPaddles l r) g
  obtain ⟨hbl, hbr⟩ := stepBall_bounced (s.withPaddles l r) g
  have sl : (s.withPaddles l r).scoreL = s.scoreL := rfl
  have sr : (s.withPaddles l r).scoreR = s.scoreR := rfl
  rw [sl] at hsl
  rw [sr] at hsr
  refine ⟨l, r, _, hl, hr, hu, hcount, bouncesLeft_iff _, bouncesRight_iff _, ?_, ?_, ?_⟩
  · intro h
    obtain ⟨e1, e2⟩ := bounce_no_exit (s.withPaddles l r) g (Or.inl h)
    rw [e2] at hsl
    rw [e1] at hsr
    exact ⟨hbl h, by simpa using hsl, by simpa using hsr⟩
  · intro h
    obtain ⟨e1, e2⟩ := bounce_no_exit (s.withPaddles l r) g (Or.inr h)
    rw [e2] at hsl
    rw [e1] at hsr
    exact ⟨hbr h, by simpa using hsl, by simpa using hsr⟩
  · rw [hsl, hsr]
    have : ((s.withPaddles l r).exitsLeft.toNat : Int)
        + (((s.withPaddles l r).exitsRight g).toNat : Int) ≤ 1 := by
      have h2 : (s.withPaddles l r).exitsLeft.toNat
          + ((s.withPaddles l r).exitsRight g).toNat ≤ 1 := by omega
      exact_mod_cast h2
    linarith

/-- The sample game bounces the ball off the left paddle. -/
theorem sampleBounceLeft_bounces : (sampleBounceLeft.withPaddles 24 0).bouncesLeft = true := by
  simp only [PongGame.bouncesLeft, PongGame.withPaddles, sampleBounceLeft, PongGame.advance,
    PongGame.hitsLeft, PongGame.SCREEN_HEIGHT, PongGame.BALL_SIZE, PongGame.LEFT_X,
    PongGame.PADDLE_W, PongGame.PADDLE_H]
  norm_num

theorem sampleBounceLeft_paddles :
    sampleBounceLeft.mapPotToPaddle 2048 = some 24 ∧
    sampleBounceLeft.mapPotToPaddle 0 = some 0 := by
  have h1 := (mapPotToPaddle_eq sampleBounceLeft 2048 (by decide) (by decide)).1
  have h2 := (mapPotToPaddle_eq sampleBounceLeft 0 (by decide) (by decide)).1
  rw [h1, h2]
  exact ⟨by decide, by decide⟩

theorem C20_at_most_one_event_witness :
    ∃ res, sampleBounceLeft.update { potL := 2048 } sampleRng = some res ∧
      res.1.ballX = 6 ∧ res.1.scoreL = sampleBounceLeft.scoreL ∧
      res.1.scoreR = sampleBounceLeft.scoreR := by
  obtain ⟨l, r, res, hl, hr, hu, -, -, -, h1, -, -⟩ :=
    C20_at_most_one_event sampleBounceLeft { potL := 2048 } sampleRng (by decide)
  have hl0 : l = 24 := Option.some.inj (hl.symm.trans sampleBounceLeft_paddles.1)
  have hr0 : r = 0 := Option.some.inj (hr.symm.trans sampleBounceLeft_paddles.2)
  subst hl0 hr0
  exact ⟨res, hu, h1 sampleBounceLeft_bounces⟩

/-! ### Ball speed and wall reflection -/

theorem stepBall_vx (a : PongGame) (g : Rng) (h1 : a.exitsLeft = false)
    (h2 : a.exitsRight g = false) :
    (a.stepBall g).1.vx =
      if (a.bouncesLeft || a.bouncesRight) = true then -a.vx * (101 / 100) else a.vx := by
  rcases stepBall_cases a g with h | h | h | h | h
  · rw [h.2.2.2.2, h.1, h.2.1, bounce_vx, advance_vx]; rfl
  · rw [h.2.2.2.2, h.1, h.2.1, bounce_vx, advance_vx]; rfl
  · rw [h.2.2.1] at h1; cases h1
  · rw [h.2.2.2.1] at h2; cases h2
  · rw [h.2.2.2.2, h.1, h.2.1, advance_vx]; rfl

theorem stepBall_adc (a : PongGame) (g : Rng) :
    (a.stepBall g).1.ADC_MAX_REAL = a.ADC_MAX_REAL := by
  have t := (advance_sameTable a).1
  rcases stepBall_cases a g with h | h | h | h | h
  · rw [h.2.2.2.2, (bounce_sameTable _ _ _).1, t]
  · rw [h.2.2.2.2, (bounce_sameTable _ _ _).1, t]
  · rw [h.2.2.2.2.2]; exact t
  · rw [h.2.2.2.2.2]; exact t
  · rw [h.2.2.2.2]; exact t

/-- One update of a rally: the horizontal speed is multiplied by `1.01` by a
paddle bounce and unchanged otherwise. -/
theorem update_rally (s : PongGame) (inp : Inputs) (g : Rng) (hadc : s.ADC_MAX_REAL ≠ 0)
    (hno : s.respawns inp g = false) :
    ∃ res, s.update inp g = some res ∧ res.1.ADC_MAX_REAL = s.ADC_MAX_REAL ∧
      res.1.vx = (if s.bounces inp = true then -s.vx * (101 / 100) else s.vx) ∧
      |res.1.vx| = (if s.bounces inp = true then (101 / 100) * |s.vx| else |s.vx|) ∧
      |s.vx| ≤ |res.1.vx| := by
  obtain ⟨l, r, -, -, hs, hu⟩ := update_eq s inp g hadc
  simp only [PongGame.respawns, hs, Bool.or_eq_false_iff] at hno
  have hv := stepBall_vx (s.withPaddles l r) g hno.1 hno.2
  have hb : s.bounces inp = ((s.withPaddles l r).bouncesLeft || (s.withPaddles l r).bouncesRight) := by
    simp only [PongGame.bounces, hs]
  have hvx : (s.withPaddles l r).vx = s.vx := rfl
  rw [← hb, hvx] at hv
  refine ⟨_, hu, stepBall_adc _ g, hv, ?_, ?_⟩
  · rw [hv]
    split_ifs
    · rw [abs_mul, abs_neg, mul_comm]
      norm_num [abs_of_pos]
    · rfl
  · rw [hv]
    split_ifs
    · rw [abs_mul, abs_neg]
      have h1 : |(101 / 100 : ℚ)| = 101 / 100 := abs_of_pos (by norm_num)
      rw [h1]
      nlinarith [abs_nonneg s.vx]
    · exact le_rfl

theorem rally_vx (inps : List Inputs) :
    ∀ (s : PongGame) (g : Rng), s.ADC_MAX_REAL ≠ 0 → s.Rally g inps →
      ∃ fin, s.runs g inps = some fin ∧ |s.vx| ≤ |fin.1.vx| := by
  induction inps with
  | nil => intro s g _ _; exact ⟨(s, g), rfl, le_rfl⟩
  | cons inp rest ih =>
    intro s g hadc hr
    simp only [PongGame.Rally] at hr
    obtain ⟨res, hu, ha, -, -, hle⟩ := update_rally s inp g hadc hr.1
    have hr2 : res.1.Rally res.2 rest := by
      have := hr.2
      rw [hu] at this
      exact this
    obtain ⟨fin, hf, hle2⟩ := ih res.1 res.2 (ha ▸ hadc) hr2
    refine ⟨fin, ?_, le_trans hle hle2⟩
    simp only [PongGame.runs, hu, hf]

/-- C12. With the `float` fields read as exact rationals, in every `update`
that returns (`ADC_MAX_REAL ≠ 0`) and does not respawn the ball, the horizontal
velocity is `-1.01 * vx` if a paddle bounce occurs and `vx` otherwise, so `|vx|`
is multiplied by exactly `1.01` by a bounce, is unchanged otherwise, and never
decreases; hence over any run of updates within one rally (none respawns the
ball) `|vx|` at the end is at least `|vx|` at the start. -/
theorem C12_speed_never_drops_in_a_rally (s : PongGame) (inp : Inputs) (g : Rng)
    (inps : List Inputs) (hadc : s.ADC_MAX_REAL ≠ 0)
    (hno : s.respawns inp g = false) (hrally : s.Rally g inps) :
    (∃ res, s.update inp g = some res ∧
      res.1.vx = (if s.bounces inp = true then -s.vx * (101 / 100) else s.vx) ∧
      |res.1.vx| = (if s.bounces inp = true then (101 / 100) * |s.vx| else |s.vx|) ∧
      |s.vx| ≤ |res.1.vx|) ∧
    (∃ fin, s.runs g inps = some fin ∧ |s.vx| ≤ |fin.1.vx|) := by
  obtain ⟨res, h1, -, h3, h4, h5⟩ := update_rally s inp g hadc hno
  exact ⟨⟨res, h1, h3, h4, h5⟩, rally_vx inps s g hadc hrally⟩

/-- C17. With the `float` fields read as exact rationals, in every `update`
that returns (`ADC_MAX_REAL ≠ 0`) with no paddle bounce and no respawn: if the
moved ball touches the top wall (`ballY + vy ≤ 0`) it is put at `0` and `vy` is
negated; else if it touches the bottom wall (`ballY + vy ≥ 61`) it is put at
`61` and `vy` is negated; otherwise the ball is at `ballY + vy` and `vy` is
unchanged. -/
theorem C17_wall_reflection (s : PongGame) (inp : Inputs) (g : Rng)
    (hadc : s.ADC_MAX_REAL ≠ 0) (hnb : s.bounces inp = false)
    (hno : s.respawns inp g = false) :
    ∃ res, s.update inp g = some res ∧
      (res.1.ballY, res.1.vy) =
        if s.ballY + s.vy ≤ 0 then (0, -s.vy)
        else if s.ballY + s.vy ≥ 61 then (61, -s.vy)
        else (s.ballY + s.vy, s.vy) := by
  obtain ⟨l, r, -, -, hs, hu⟩ := update_eq s inp g hadc
  simp only [PongGame.respawns, hs, Bool.or_eq_false_iff] at hno
  simp only [PongGame.bounces, hs, Bool.or_eq_false_iff] at hnb
  refine ⟨_, hu, ?_⟩
  rcases stepBall_cases (s.withPaddles l r) g with h | h | h | h | h
  · rw [h.1] at hnb; cases hnb.1
  · rw [h.2.1] at hnb; cases hnb.2
  · rw [h.2.2.1] at hno; cases hno.1
  · rw [h.2.2.2.1] at hno; cases hno.2
  · rw [h.2.2.2.2]
    exact advance_wall (s.withPaddles l r)

theorem sampleBounceLeft_setPaddles :
    sampleBounceLeft.setPaddles { potL := 2048 } = some (sampleBounceLeft.withPaddles 24 0) := by
  simp only [PongGame.setPaddles, sampleBounceLeft_paddles.1, sampleBounceLeft_paddles.2]

theorem sampleBounceLeft_rally :
    sampleBounceLeft.respawns { potL := 2048 } sampleRng = false ∧
    sampleBounceLeft.bounces { potL := 2048 } = true ∧
    sampleBounceLeft.Rally sampleRng [{ potL := 2048 }] := by
  obtain ⟨e1, e2⟩ := bounce_no_exit (sampleBounceLeft.withPaddles 24 0) sampleRng
    (Or.inl sampleBounceLeft_bounces)
  have h1 : sampleBounceLeft.respawns { potL := 2048 } sampleRng = false := by
    simp only [PongGame.respawns, sampleBounceLeft_setPaddles, e1, e2, Bool.or_self]
  refine ⟨h1, ?_, ?_⟩
  · simp only [PongGame.bounces, sampleBounceLeft_setPaddles, sampleBounceLeft_bounces,
      Bool.true_or]
  · simp only [PongGame.Rally, h1, true_and]
    split <;> trivial

theorem C12_speed_never_drops_in_a_rally_witness :
    (∃ res, sampleBounceLeft.update { potL := 2048 } sampleRng = some res ∧
      res.1.vx = -sampleBounceLeft.vx * (101 / 100) ∧
      |res.1.vx| = (101 / 100) * |sampleBounceLeft.vx| ∧
      |sampleBounceLeft.vx| ≤ |res.1.vx|) ∧
    (∃ fin, sampleBounceLeft.runs sampleRng [{ potL := 2048 }] = some fin ∧
      |sampleBounceLeft.vx| ≤ |fin.1.vx|) := by
  obtain ⟨⟨res, h1, h2, h3, h4⟩, h5⟩ :=
    C12_speed_never_drops_in_a_rally sampleBounceLeft { potL := 2048 } sampleRng
      [{ potL := 2048 }] (by decide) sampleBounceLeft_rally.1 sampleBounceLeft_rally.2.2
  rw [if_pos sampleBounceLeft_rally.2.1] at h2 h3
  exact ⟨⟨res, h1, h2, h3, h4⟩, h5⟩

theorem sampleWall_quiet :
    sampleWall.setPaddles {} = some (sampleWall.withPaddles 0 0) ∧
    sampleWall.bounces {} = false ∧ sampleWall.respawns {} sampleRng = false := by
  have hm : sampleWall.mapPotToPaddle 0 = some 0 := by
    rw [(mapPotToPaddle_eq sampleWall 0 (by decide) (by decide)).1]; decide
  have hs : sampleWall.setPaddles {} = some (sampleWall.withPaddles 0 0) := by
    simp only [PongGame.setPaddles, hm]
  have hl : (sampleWall.withPaddles 0 0).bouncesLeft = false := by
    simp only [PongGame.bouncesLeft, PongGame.withPaddles, sampleWall, PongGame.advance,
      PongGame.hitsLeft, PongGame.SCREEN_HEIGHT, PongGame.BALL_SIZE, PongGame.LEFT_X,
      PongGame.PADDLE_W, PongGame.PADDLE_H]
    norm_num
  have hr : (sampleWall.withPaddles 0 0).bouncesRight = false := by
    simp only [PongGame.bouncesRight, PongGame.leftPaddle, PongGame.withPaddles, sampleWall,
      PongGame.advance, PongGame.hitsLeft, PongGame.hitsRight, PongGame.SCREEN_HEIGHT,
      PongGame.BALL_SIZE, PongGame.LEFT_X, PongGame.PADDLE_W, PongGame.PADDLE_H,
      PongGame.RIGHT_X, PongGame.SCREEN_WIDTH]
    norm_num
  refine ⟨hs, ?_, ?_⟩
  · simp only [PongGame.bounces, hs, hl, hr, Bool.or_self]
  · rcases stepBall_cases (sampleWall.withPaddles 0 0) sampleRng with h | h | h | h | h
    · rw [hl] at h; cases h.1
    · rw [hr] at h; cases h.2.1
    · exfalso
      have := h.2.2.2.2.1
      rw [advance_ballX] at this
      simp only [PongGame.withPaddles, sampleWall] at this
      norm_num at this
    · exfalso
      have := h.2.2.2.2.1
      rw [advance_ballX] at this
      simp only [PongGame.withPaddles, sampleWall] at this
      norm_num at this
    · simp only [PongGame.respawns, hs, h.2.2.1, h.2.2.2.1, Bool.or_self]

theorem C17_wall_reflection_witness :
    ∃ res, sampleWall.update {} sampleRng = some res ∧
      (res.1.ballY, res.1.vy) = (61, -sampleWall.vy) := by
  obtain ⟨res, h1, h2⟩ :=
    C17_wall_reflection sampleWall {} sampleRng (by decide) sampleWall_quiet.2.1
      sampleWall_quiet.2.2
  refine ⟨res, h1, ?_⟩
  rw [h2]
  simp only [sampleWall]
  norm_num

/-! ## Theorems: FlappyGame.h -/

theorem stepPipe_fields (x y : Int) (f : Bool) (g : Rng) :
    (FlappyGame.stepPipe x y f g).1.1 = (if x - 1 < -10 then 128 else x - 1) ∧
    (FlappyGame.stepPipe x y f g).1.2.2 = (if x - 1 < -10 then false else f) := by
  simp only [FlappyGame.stepPipe, FlappyGame.PIPE_W, FlappyGame.SCREEN_WIDTH]
  split_ifs <;> exact ⟨rfl, rfl⟩

/-- What lines 26-36 do to the obstacles and the score. -/
theorem physics_fields (s : FlappyGame) (inp : Inputs) (g : Rng) :
    (s.physics inp g).1.pipeX1 = (if s.pipeX1 - 1 < -10 then 128 else s.pipeX1 - 1) ∧
    (s.physics inp g).1.passed1 = (if s.pipeX1 - 1 < -10 then false else s.passed1) ∧
    (s.physics inp g).1.pipeX2 = (if s.pipeX2 - 1 < -10 then 128 else s.pipeX2 - 1) ∧
    (s.physics inp g).1.passed2 = (if s.pipeX2 - 1 < -10 then false else s.passed2) ∧
    (s.physics inp g).1.score = s.score := by
  exact ⟨(stepPipe_fields _ _ _ _).1, (stepPipe_fields _ _ _ _).2,
    (stepPipe_fields _ _ _ _).1, (stepPipe_fields _ _ _ _).2, rfl⟩

/-- What the two score tests do. -/
theorem scoring_fields (s : FlappyGame) :
    s.scoring.score = s.score + FlappyGame.gain s.pipeX1 s.passed1 +
      FlappyGame.gain s.pipeX2 s.passed2 ∧
    s.scoring.passed1 = (s.passed1 || decide (s.pipeX1 + 10 < 28)) ∧
    s.scoring.passed2 = (s.passed2 || decide (s.pipeX2 + 10 < 28)) ∧
    s.scoring.pipeX1 = s.pipeX1 ∧ s.scoring.pipeX2 = s.pipeX2 ∧
    s.scoring.gapY1 = s.gapY1 ∧ s.scoring.gapY2 = s.gapY2 ∧
    s.scoring.birdY = s.birdY ∧ s.scoring.vel = s.vel := by
  obtain ⟨y, v, sc, x1, x2, g1, g2, f1, f2⟩ := s
  simp only [FlappyGame.scoring, FlappyGame.gain, FlappyGame.PIPE_W, FlappyGame.BIRD_X]
  cases f1 <;> cases f2 <;>
    by_cases h1 : x1 + 10 < 28 <;> by_cases h2 : x2 + 10 < 28 <;>
    simp [h1, h2]

theorem reset_fields (s : FlappyGame) (g : Rng) :
    (s.reset g).1.score = 0 ∧ (s.reset g).1.birdY = 28 ∧ (s.reset g).1.vel = 0 ∧
    (s.reset g).1.pipeX1 = 128 ∧ (s.reset g).1.pipeX2 = 192 ∧
    (s.reset g).1.passed1 = false ∧ (s.reset g).1.passed2 = false ∧
    (s.reset g).1.gapY1 = (FlappyGame.drawGap g).1 ∧
    (s.reset g).1.gapY2 = (FlappyGame.drawGap (FlappyGame.drawGap g).2).1 :=
  ⟨rfl, rfl, rfl, rfl, rfl, rfl, rfl, rfl, rfl⟩

theorem update_of_noReset (s : FlappyGame) (inp : Inputs) (g : Rng)
    (h : s.endsInReset inp g = false) :
    s.update inp g = ((s.physics inp g).1.scoring, (s.physics inp g).2) := by
  simp only [FlappyGame.endsInReset, Bool.or_eq_false_iff] at h
  simp only [FlappyGame.update, h.1, h.2, Bool.false_eq_true, if_false]

theorem update_of_reset (s : FlappyGame) (inp : Inputs) (g : Rng)
    (h : s.endsInReset inp g = true) :
    ∃ q : FlappyGame, s.update inp g = q.reset (s.physics inp g).2 := by
  simp only [FlappyGame.endsInReset, Bool.or_eq_true] at h
  by_cases hf : (s.physics inp g).1.hitsFloor = true
  · exact ⟨(s.physics inp g).1, by simp only [FlappyGame.update, hf, if_true]⟩
  · have hc : (s.physics inp g).1.scoring.collides = true := by
      rcases h with h | h
      · exact absurd h hf
      · exact h
    have hf2 : (s.physics inp g).1.hitsFloor = false := by simpa using hf
    exact ⟨(s.physics inp g).1.scoring, by
      simp only [FlappyGame.update, hf2, hc, if_true, Bool.false_eq_true, if_false]⟩

/-- Obstacle 1 over a run without reset that starts `j` steps after its
recycle and stays within the cycle: it moves one position per step and its
flag is set from step 111 on. -/
theorem cycle1 (pre : List Inputs) :
    ∀ (c : FlappyGame) (gc : Rng) (j : Nat), c.pipeX1 = 128 - (j : Int) →
      c.passed1 = decide (111 ≤ j) → j + pre.length ≤ 138 → c.NoReset gc pre →
      (c.runs gc pre).1.pipeX1 = 128 - ((j + pre.length : Nat) : Int) ∧
      (c.runs gc pre).1.passed1 = decide (111 ≤ j + pre.length) := by
  induction pre with
  | nil => intro c gc j hx hf _ _; exact ⟨by simpa using hx, by simpa using hf⟩
  | cons inp rest ih =>
    intro c gc j hx hf hlen hno
    simp only [List.length_cons] at hlen
    simp only [FlappyGame.NoReset] at hno
    obtain ⟨p1, p2, -, -, -⟩ := physics_fields c inp gc
    obtain ⟨-, s2, -, s4, -⟩ := scoring_fields (c.physics inp gc).1
    have hu := update_of_noReset c inp gc hno.1
    have hx1 : (c.update inp gc).1.pipeX1 = 128 - ((j + 1 : Nat) : Int) := by
      rw [hu]; simp only; rw [s4, p1, hx, if_neg (by omega)]; push_cast; ring
    have hf1 : (c.update inp gc).1.passed1 = decide (111 ≤ j + 1) := by
      rw [hu]; simp only; rw [s2, p2, p1, hx, if_neg (by omega), if_neg (by omega), hf]
      by_cases h : 111 ≤ j
      · have h2 : 111 ≤ j + 1 := by omega
        simp [h, h2]
      · by_cases h3 : 111 ≤ j + 1
        · have h4 : (128 : Int) - j - 1 + 10 < 28 := by omega
          simp [h, h3, h4]
        · have h4 : ¬ ((128 : Int) - j - 1 + 10 < 28) := by omega
          simp [h, h3, h4]
    obtain ⟨i1, i2⟩ := ih _ (c.update inp gc).2 (j + 1) hx1 hf1 (by omega) hno.2
    simp only [FlappyGame.runs, List.length_cons]
    have e : j + 1 + rest.length = j + (rest.length + 1) := by omega
    rw [e] at i1 i2
    exact ⟨i1, i2⟩

/-- Obstacle 2 over a run without reset within its cycle. -/
theorem cycle2 (pre : List Inputs) :
    ∀ (c : FlappyGame) (gc : Rng) (j : Nat), c.pipeX2 = 128 - (j : Int) →
      c.passed2 = decide (111 ≤ j) → j + pre.length ≤ 138 → c.NoReset gc pre →
      (c.runs gc pre).1.pipeX2 = 128 - ((j + pre.length : Nat) : Int) ∧
      (c.runs gc pre).1.passed2 = decide (111 ≤ j + pre.length) := by
  induction pre with
  | nil => intro c gc j hx hf _ _; exact ⟨by simpa using hx, by simpa using hf⟩
  | cons inp rest ih =>
    intro c gc j hx hf hlen hno
    simp only [List.length_cons] at hlen
    simp only [FlappyGame.NoReset] at hno
    obtain ⟨-, -, p1, p2, -⟩ := physics_fields c inp gc
    obtain ⟨-, -, s2, -, s4, -⟩ := scoring_fields (c.physics inp gc).1
    have hu := update_of_noReset c inp gc hno.1
    have hx1 : (c.update inp gc).1.pipeX2 = 128 - ((j + 1 : Nat) : Int) := by
      rw [hu]; simp only; rw [s4, p1, hx, if_neg (by omega)]; push_cast; ring
    have hf1 : (c.update inp gc).1.passed2 = decide (111 ≤ j + 1) := by
      rw [hu]; simp only; rw [s2, p2, p1, hx, if_neg (by omega), if_neg (by omega), hf]
      by_cases h : 111 ≤ j
      · have h2 : 111 ≤ j + 1 := by omega
        simp [h, h2]
      · by_cases h3 : 111 ≤ j + 1
        · have h4 : (128 : Int) - j - 1 + 10 < 28 := by omega
          simp [h, h3, h4]
        · have h4 : ¬ ((128 : Int) - j - 1 + 10 < 28) := by omega
          simp [h, h3, h4]
    obtain ⟨i1, i2⟩ := ih _ (c.update inp gc).2 (j + 1) hx1 hf1 (by omega) hno.2
    simp only [FlappyGame.runs, List.length_cons]
    have e : j + 1 + rest.length = j + (rest.length + 1) := by omega
    rw [e] at i1 i2
    exact ⟨i1, i2⟩

/-- What the score tests add for an obstacle `j ≤ 138` steps after its
recycle, in the next step: one exactly when that step is the 111th. -/
theorem gain_in_cycle (x : Int) (f : Bool) (j : Nat) (hj : j ≤ 138)
    (hx : x = 128 - (j : Int)) (hf : f = decide (111 ≤ j)) :
    FlappyGame.gain (if x - 1 < -10 then 128 else x - 1) (if x - 1 < -10 then false else f) =
      if j + 1 = 111 then 1 else 0 := by
  subst hx hf
  simp only [FlappyGame.gain, FlappyGame.PIPE_W, FlappyGame.BIRD_X]
  by_cases h1 : (128 : Int) - j - 1 < -10
  · have : ¬ (j + 1 = 111) := by omega
    simp [h1, this]
  · by_cases h2 : j + 1 = 111
    · have h3 : ¬ (111 ≤ j) := by omega
      have h4 : (128 : Int) - j - 1 + 10 < 28 := by omega
      simp [h1, h2, h3, h4]
    · by_cases h3 : 111 ≤ j
      · simp [h1, h2, h3]
      · have h4 : ¬ ((128 : Int) - j - 1 + 10 < 28) := by omega
        simp [h1, h2, h3, h4]

/-- A game with the bird at rest at its start height and the obstacles at
their start positions: one update without a flap moves the bird to
`28 + 0.22`, the obstacles to 127 and 191, and ends neither on the floor nor
in a collision. -/
theorem quiet_start (s : FlappyGame) (inp : Inputs) (g : Rng)
    (hy : s.birdY = 28) (hv : s.vel = 0) (hx1 : s.pipeX1 = 128) (hx2 : s.pipeX2 = 192)
    (hne : inp.selectEv = BtnEvent.BTN_NONE) :
    (s.physics inp g).1.hitsFloor = false ∧ (s.physics inp g).1.scoring.collides = false ∧
    s.endsInReset inp g = false ∧
    s.update inp g =
      ({ s with birdY := 28 + 11 / 50, vel := 11 / 50, pipeX1 := 127, pipeX2 := 191 }, g) := by
  obtain ⟨y, v, sc, x1, x2, g1, g2, f1, f2⟩ := s
  simp only at hy hv hx1 hx2
  subst hy hv hx1 hx2
  have hev : ¬ (BtnEvent.BTN_NONE = BtnEvent.BTN_SHORT ∨
      BtnEvent.BTN_NONE = BtnEvent.BTN_LONG) := by decide
  have hp : (FlappyGame.physics ⟨28, 0, sc, 128, 192, g1, g2, f1, f2⟩ inp g) =
      (⟨28 + 11 / 50, 11 / 50, sc, 127, 191, g1, g2, f1, f2⟩, g) := by
    simp only [FlappyGame.physics, FlappyGame.stepPipe, hne, hev, if_false,
      FlappyGame.gravity, FlappyGame.PIPE_W]
    norm_num
  have hq : (FlappyGame.scoring ⟨28 + 11 / 50, 11 / 50, sc, 127, 191, g1, g2, f1, f2⟩) =
      ⟨28 + 11 / 50, 11 / 50, sc, 127, 191, g1, g2, f1, f2⟩ := by
    simp only [FlappyGame.scoring, FlappyGame.PIPE_W, FlappyGame.BIRD_X]
    norm_num
  have hf : (FlappyGame.hitsFloor ⟨28 + 11 / 50, 11 / 50, sc, 127, 191, g1, g2, f1, f2⟩)
      = false := by
    simp only [FlappyGame.hitsFloor, FlappyGame.BIRD_SIZE, FlappyGame.SCREEN_HEIGHT]
    norm_num
  have hc : (FlappyGame.collides ⟨28 + 11 / 50, 11 / 50, sc, 127, 191, g1, g2, f1, f2⟩)
      = false := by
    simp only [FlappyGame.collides, FlappyGame.collidePipe, FlappyGame.BIRD_X,
      FlappyGame.BIRD_SIZE, FlappyGame.PIPE_W]
    norm_num
  refine ⟨by rw [hp]; exact hf, by rw [hp]; simp only; rw [hq]; exact hc, ?_, ?_⟩
  · simp only [FlappyGame.endsInReset, hp, hq, hf, hc, Bool.or_self]
  · simp only [FlappyGame.update, hp, hq, hf, hc, Bool.false_eq_true, if_false]

/-- C13. In `update`, for every step that does not end in a reset: the score
grows by what the two obstacles add, each adding exactly one if its flag is
clear after `stepPipe` (so after any recycle on this step) and its trailing
edge `pipeX + PIPE_W` is left of `BIRD_X`, and nothing otherwise; the flag is
set in that case. Consequently, over a run without reset that starts right
after an obstacle has recycled (position 128, flag clear) and has not reached
its next recycle (at most 138 steps), the obstacle is `128 - n` after `n`
steps and what it adds in the next step is one exactly when that step is the
111th, the first whose trailing edge is left of the bird: once per cycle,
never twice. -/
theorem C13_score_once_per_cycle (s : FlappyGame) (inp : Inputs) (g : Rng)
    (c : FlappyGame) (gc : Rng) (pre : List Inputs) (nxt : Inputs)
    (hno : s.endsInReset inp g = false)
    (hlen : pre.length ≤ 138) (hrun : c.NoReset gc pre) :
    ((s.update inp g).1.score =
      s.score + FlappyGame.gain (s.physics inp g).1.pipeX1 (s.physics inp g).1.passed1 +
        FlappyGame.gain (s.physics inp g).1.pipeX2 (s.physics inp g).1.passed2 ∧
    (s.update inp g).1.passed1 = ((s.physics inp g).1.passed1 ||
      decide ((s.physics inp g).1.pipeX1 + FlappyGame.PIPE_W < FlappyGame.BIRD_X)) ∧
    (s.update inp g).1.passed2 = ((s.physics inp g).1.passed2 ||
      decide ((s.physics inp g).1.pipeX2 + FlappyGame.PIPE_W < FlappyGame.BIRD_X)) ∧
    (s.physics inp g).1.pipeX1 = (if s.pipeX1 - 1 < -10 then 128 else s.pipeX1 - 1) ∧
    (s.physics inp g).1.passed1 = (if s.pipeX1 - 1 < -10 then false else s.passed1) ∧
    (s.physics inp g).1.pipeX2 = (if s.pipeX2 - 1 < -10 then 128 else s.pipeX2 - 1) ∧
    (s.physics inp g).1.passed2 = (if s.pipeX2 - 1 < -10 then false else s.passed2)) ∧
    (c.pipeX1 = 128 → c.passed1 = false →
      (c.runs gc pre).1.pipeX1 = 128 - (pre.length : Int) ∧
      FlappyGame.gain ((c.runs gc pre).1.physics nxt (c.runs gc pre).2).1.pipeX1
        ((c.runs gc pre).1.physics nxt (c.runs gc pre).2).1.passed1 =
        if pre.length + 1 = 111 then 1 else 0) ∧
    (c.pipeX2 = 128 → c.passed2 = false →
      (c.runs gc pre).1.pipeX2 = 128 - (pre.length : Int) ∧
      FlappyGame.gain ((c.runs gc pre).1.physics nxt (c.runs gc pre).2).1.pipeX2
        ((c.runs gc pre).1.physics nxt (c.runs gc pre).2).1.passed2 =
        if pre.length + 1 = 111 then 1 else 0) := by
  refine ⟨?_, ?_, ?_⟩
  · obtain ⟨p1, p2, p3, p4, -⟩ := physics_fields s inp g
    obtain ⟨s1, s2, s3, -⟩ := scoring_fields (s.physics inp g).1
    obtain ⟨-, -, -, -, p5⟩ := physics_fields s inp g
    rw [update_of_noReset s inp g hno]
    simp only
    rw [p5] at s1
    exact ⟨s1, s2, s3, p1, p2, p3, p4⟩
  · intro hx hf
    obtain ⟨k1, k2⟩ := cycle1 pre c gc 0 (by simpa using hx) (by simpa using hf)
      (by omega) hrun
    simp only [zero_add] at k1 k2
    obtain ⟨p1, p2, -⟩ := physics_fields (c.runs gc pre).1 nxt (c.runs gc pre).2
    rw [p1, p2]
    exact ⟨k1, gain_in_cycle _ _ pre.length hlen k1 k2⟩
  · intro hx hf
    obtain ⟨k1, k2⟩ := cycle2 pre c gc 0 (by simpa using hx) (by simpa using hf)
      (by omega) hrun
    simp only [zero_add] at k1 k2
    obtain ⟨-, -, p1, p2, -⟩ := physics_fields (c.runs gc pre).1 nxt (c.runs gc pre).2
    rw [p1, p2]
    exact ⟨k1, gain_in_cycle _ _ pre.length hlen k1 k2⟩

/-- The sample flight: started right after a reset it goes through its 110
updates without a reset, so obstacle 1 comes from 128 down to 18. -/
theorem sampleFlight_noReset :
    FlappyGame.sampleFlight.length = 110 ∧
    (FlappyGame.fresh.reset sampleRng).1.NoReset (FlappyGame.fresh.reset sampleRng).2
      FlappyGame.sampleFlight :=
  ⟨by decide, by decide!⟩

/-- The sample game one step before obstacle 1 is passed: the next update does
not end in a reset. -/
theorem sampleScoring_noReset :
    FlappyGame.sampleScoring.endsInReset FlappyGame.noFlap sampleRng = false := by
  decide!

theorem C13_score_once_per_cycle_witness :
    FlappyGame.sampleScoring.endsInReset FlappyGame.noFlap sampleRng = false ∧
    FlappyGame.sampleFlight.length ≤ 138 ∧
    (FlappyGame.fresh.reset sampleRng).1.NoReset (FlappyGame.fresh.reset sampleRng).2
      FlappyGame.sampleFlight ∧
    ((FlappyGame.sampleScoring.update FlappyGame.noFlap sampleRng).1.score
        = FlappyGame.sampleScoring.score + 1 ∧
      (FlappyGame.sampleScoring.update FlappyGame.noFlap sampleRng).1.passed1 = true ∧
      (FlappyGame.sampleScoring.physics FlappyGame.noFlap sampleRng).1.pipeX1 = 17) ∧
    (((FlappyGame.fresh.reset sampleRng).1.runs (FlappyGame.fresh.reset sampleRng).2
        FlappyGame.sampleFlight).1.pipeX1 = 18 ∧
      FlappyGame.gain
        ((((FlappyGame.fresh.reset sampleRng).1.runs (FlappyGame.fresh.reset sampleRng).2
            FlappyGame.sampleFlight).1.physics FlappyGame.noFlap
          ((FlappyGame.fresh.reset sampleRng).1.runs (FlappyGame.fresh.reset sampleRng).2
            FlappyGame.sampleFlight).2).1.pipeX1)
        ((((FlappyGame.fresh.reset sampleRng).1.runs (FlappyGame.fresh.reset sampleRng).2
            FlappyGame.sampleFlight).1.physics FlappyGame.noFlap
          ((FlappyGame.fresh.reset sampleRng).1.runs (FlappyGame.fresh.reset sampleRng).2
            FlappyGame.sampleFlight).2).1.passed1) = 1) := by
  obtain ⟨⟨h1, h2, -, h4, h5, h6, h7⟩, hc, -⟩ :=
    C13_score_once_per_cycle FlappyGame.sampleScoring FlappyGame.noFlap sampleRng
      (FlappyGame.fresh.reset sampleRng).1 (FlappyGame.fresh.reset sampleRng).2
      FlappyGame.sampleFlight FlappyGame.noFlap
      sampleScoring_noReset (by decide) sampleFlight_noReset.2
  obtain ⟨c1, c2⟩ := hc rfl rfl
  rw [sampleFlight_noReset.1] at c1 c2
  have e4 : (FlappyGame.sampleScoring.physics FlappyGame.noFlap sampleRng).1.pipeX1 = 17 := by
    rw [h4]; decide
  have e5 : (FlappyGame.sampleScoring.physics FlappyGame.noFlap sampleRng).1.passed1
      = false := by
    rw [h5]; decide
  have e6 : (FlappyGame.sampleScoring.physics FlappyGame.noFlap sampleRng).1.pipeX2 = 81 := by
    rw [h6]; decide
  have e7 : (FlappyGame.sampleScoring.physics FlappyGame.noFlap sampleRng).1.passed2
      = false := by
    rw [h7]; decide
  rw [e4, e5, e6, e7] at h1
  rw [e4, e5] at h2
  refine ⟨sampleScoring_noReset, by decide, sampleFlight_noReset.2, ⟨?_, ?_, e4⟩, ?_, ?_⟩
  · rw [h1]; decide
  · rw [h2]; decide
  · rw [c1]; decide
  · rw [c2]; decide

/-! ### The first update after a reset -/

/-- A Pong state with the ball at the centre line moving right at the default
speed: the update only moves the ball. -/
theorem pong_quiet_start (a : PongGame) (g : Rng) (hx : a.ballX = 64)
    (hvx : a.vx = 19 / 10) :
    a.bouncesLeft = false ∧ a.bouncesRight = false ∧ a.exitsLeft = false ∧
    a.exitsRight g = false ∧ a.stepBall g = (a.advance, g) := by
  have hbx : a.advance.ballX = 64 + 19 / 10 := by rw [advance_ballX, hx, hvx]
  have hl : a.bouncesLeft = false := by
    cases h : a.bouncesLeft
    · rfl
    · have := ((bouncesLeft_iff a).mp h).1
      rw [hvx] at this
      norm_num at this
  have hr : a.bouncesRight = false := by
    cases h : a.bouncesRight
    · rfl
    · have := ((bouncesRight_iff a).mp h).2.1
      rw [hx, hvx] at this
      norm_num at this
  rcases stepBall_cases a g with h | h | h | h | h
  · rw [hl] at h; cases h.1
  · rw [hr] at h; cases h.2.1
  · exfalso
    have := h.2.2.2.2.1
    rw [hbx] at this
    norm_num at this
  · exfalso
    have := h.2.2.2.2.1
    rw [hbx] at this
    norm_num at this
  · exact h

theorem pong_reset_fields (t : PongGame) (g : Rng) :
    (t.reset g).1.ballX = 64 ∧ (t.reset g).1.ballY = 32 ∧ (t.reset g).1.vx = t.baseSpeedX ∧
    (t.reset g).1.scoreL = 0 ∧ (t.reset g).1.scoreR = 0 ∧
    (t.reset g).1.ADC_MAX_REAL = t.ADC_MAX_REAL := by
  refine ⟨?_, ?_, rfl, rfl, rfl, rfl⟩
  · simp only [PongGame.reset, PongGame.resetBall, PongGame.SCREEN_WIDTH]; norm_num
  · simp only [PongGame.reset, PongGame.resetBall, PongGame.SCREEN_HEIGHT]; norm_num

/-- C14. `reset()` immediately followed by one `update()` whose snapshot
carries no select event, for every outcome of the random draws and every
analog value. Flappy: the update does not end in a reset (the bird is not on
the floor and does not collide), the pipes are at 127 and 191 and the score is
still 0. Pong, with the default horizontal ball speed and `ADC_MAX_REAL > 0`
(whatever the vertical speed): the update returns, no paddle bounces the ball,
the ball is not respawned (it is at `x = 65.9` and no draw is consumed) and
both scores are still 0. -/
theorem C14_reset_then_update_is_quiet (f : FlappyGame) (gf : Rng) (t : PongGame) (gt : Rng)
    (inp : Inputs) (hne : inp.selectEv = BtnEvent.BTN_NONE)
    (hadc : 0 < t.ADC_MAX_REAL) (hsx : t.baseSpeedX = 19 / 10) :
    ((f.reset gf).1.endsInReset inp (f.reset gf).2 = false ∧
      ((f.reset gf).1.physics inp (f.reset gf).2).1.hitsFloor = false ∧
      ((f.reset gf).1.physics inp (f.reset gf).2).1.scoring.collides = false ∧
      ((f.reset gf).1.update inp (f.reset gf).2).1.score = 0 ∧
      ((f.reset gf).1.update inp (f.reset gf).2).1.pipeX1 = 127 ∧
      ((f.reset gf).1.update inp (f.reset gf).2).1.pipeX2 = 191) ∧
    (∃ res, (t.reset gt).1.update inp (t.reset gt).2 = some res ∧
      (t.reset gt).1.bounces inp = false ∧ (t.reset gt).1.respawns inp (t.reset gt).2 = false ∧
      res.1.scoreL = 0 ∧ res.1.scoreR = 0 ∧ res.1.ballX = 64 + 19 / 10 ∧
      res.2 = (t.reset gt).2) := by
  constructor
  · obtain ⟨r1, r2, r3, r4, r5, -⟩ := reset_fields f gf
    obtain ⟨q1, q2, q3, q4⟩ := quiet_start (f.reset gf).1 inp (f.reset gf).2 r2 r3 r4 r5 hne
    refine ⟨q3, q1, q2, ?_, ?_, ?_⟩
    · rw [q4]; exact r1
    · rw [q4]
    · rw [q4]
  · obtain ⟨r1, -, r3, r4, r5, r6⟩ := pong_reset_fields t gt
    obtain ⟨l, r, -, -, hs, hu⟩ :=
      update_eq (t.reset gt).1 inp (t.reset gt).2 (by rw [r6]; exact ne_of_gt hadc)
    obtain ⟨k1, k2, k3, k4, k5⟩ :=
      pong_quiet_start ((t.reset gt).1.withPaddles l r) (t.reset gt).2 r1 (by
        show (t.reset gt).1.vx = 19 / 10
        rw [r3, hsx])
    obtain ⟨-, -, -, -, -, t6, t7⟩ := advance_sameTable ((t.reset gt).1.withPaddles l r)
    refine ⟨_, hu, ?_, ?_, ?_, ?_, ?_, ?_⟩
    · simp only [PongGame.bounces, hs, k1, k2, Bool.or_self]
    · simp only [PongGame.respawns, hs, k3, k4, Bool.or_self]
    · rw [k5]; simp only; rw [t6]; exact r4
    · rw [k5]; simp only; rw [t7]; exact r5
    · rw [k5]; simp only; rw [advance_ballX]
      show (t.reset gt).1.ballX + (t.reset gt).1.vx = 64 + 19 / 10
      rw [r1, r3, hsx]
    · rw [k5]

theorem C14_reset_then_update_is_quiet_witness :
    ((FlappyGame.sampleFalling.reset sampleRng).1.endsInReset {}
        (FlappyGame.sampleFalling.reset sampleRng).2 = false ∧
      ((FlappyGame.sampleFalling.reset sampleRng).1.update {}
        (FlappyGame.sampleFalling.reset sampleRng).2).1.score = 0) ∧
    (∃ res, (sampleExitLeft.reset sampleRng).1.update {} (sampleExitLeft.reset sampleRng).2
        = some res ∧
      res.1.scoreL = 0 ∧ res.1.scoreR = 0) := by
  obtain ⟨⟨h1, -, -, h4, -, -⟩, res, k1, -, -, k4, k5, -, -⟩ :=
    C14_reset_then_update_is_quiet FlappyGame.sampleFalling sampleRng sampleExitLeft sampleRng
      {} rfl (by decide) rfl
  exact ⟨⟨h1, h4⟩, res, k1, k4, k5⟩

/-! ### The invariant of the two obstacles -/

theorem reset_inv (s : FlappyGame) (g : Rng) : (s.reset g).1.Inv := by
  obtain ⟨r1, -, -, r4, r5, r6, r7, -, -⟩ := reset_fields s g
  simp only [FlappyGame.Inv, r1, r4, r5, r6, r7, FlappyGame.PIPE_W, FlappyGame.BIRD_X]
  norm_num

/-- A set flag of an obstacle whose flag tells the truth rules out a
collision with it, wherever the bird is. -/
theorem collidePipe_of_passed (b : FlappyGame) (x gy : Int) (f : Bool)
    (h : f = true → x + 10 < 28) : (f && b.collidePipe x gy) = false := by
  cases f
  · rfl
  · have hx := h rfl
    have hno : ¬ (FlappyGame.BIRD_X + FlappyGame.BIRD_SIZE ≥ x ∧
        FlappyGame.BIRD_X ≤ x + FlappyGame.PIPE_W) := by
      simp only [FlappyGame.BIRD_X, FlappyGame.BIRD_SIZE, FlappyGame.PIPE_W]
      omega
    simp only [FlappyGame.collidePipe, hno, if_false, Bool.and_false]

/-- One update from a state satisfying the invariant: the invariant holds
again, the two obstacles together add at most one to the score, neither is
reported colliding at the collision test once its flag is set, and the score
grows by at most one. -/
theorem update_inv (s : FlappyGame) (inp : Inputs) (g : Rng) (h : s.Inv) :
    (s.update inp g).1.Inv ∧
    FlappyGame.gain (s.physics inp g).1.pipeX1 (s.physics inp g).1.passed1 +
      FlappyGame.gain (s.physics inp g).1.pipeX2 (s.physics inp g).1.passed2 ≤ 1 ∧
    ((s.physics inp g).1.scoring.passed1 = true →
      (s.physics inp g).1.scoring.pipeX1 + 10 < 28) ∧
    ((s.physics inp g).1.scoring.passed2 = true →
      (s.physics inp g).1.scoring.pipeX2 + 10 < 28) ∧
    (s.update inp g).1.score ≤ s.score + 1 := by
  obtain ⟨p1, p2, p3, p4, p5⟩ := physics_fields s inp g
  obtain ⟨s1, s2, s3, s4, s5, -⟩ := scoring_fields (s.physics inp g).1
  simp only [FlappyGame.Inv, FlappyGame.PIPE_W, FlappyGame.BIRD_X] at h
  obtain ⟨i1, i2, i3, i4, i5, i6⟩ := h
  generalize (s.physics inp g).1.pipeX1 = x1 at *
  generalize (s.physics inp g).1.pipeX2 = x2 at *
  generalize (s.physics inp g).1.passed1 = f1 at *
  generalize (s.physics inp g).1.passed2 = f2 at *
  have a1 : f1 = true → x1 + 10 < 28 := by
    intro hf
    rw [p2] at hf
    split_ifs at hf with hr
    have := i1.mp hf
    rw [p1, if_neg hr]
    omega
  have a2 : f2 = true → x2 + 10 < 28 := by
    intro hf
    rw [p4] at hf
    split_ifs at hf with hr
    have := i2.mp hf
    rw [p3, if_neg hr]
    omega
  have b1 : f1 = false → x1 + 10 < 28 → x1 = 17 := by
    intro hf hx
    rw [p2] at hf
    rw [p1] at hx ⊢
    split_ifs at hf hx ⊢ with hr
    · omega
    · have : ¬ (s.pipeX1 + 10 < 28) := fun hh => by
        have := i1.mpr hh
        rw [hf] at this
        cases this
      omega
  have b2 : f2 = false → x2 + 10 < 28 → x2 = 17 := by
    intro hf hx
    rw [p4] at hf
    rw [p3] at hx ⊢
    split_ifs at hf hx ⊢ with hr
    · omega
    · have : ¬ (s.pipeX2 + 10 < 28) := fun hh => by
        have := i2.mpr hh
        rw [hf] at this
        cases this
      omega
  have hd : x2 - x1 = 64 ∨ x2 - x1 = -75 := by
    rw [p1, p3]
    split_ifs <;> omega
  have hlo : -10 ≤ x1 ∧ -10 ≤ x2 := by
    rw [p1, p3]
    constructor <;> split_ifs <;> omega
  have hg : FlappyGame.gain x1 f1 + FlappyGame.gain x2 f2 ≤ 1 := by
    simp only [FlappyGame.gain, FlappyGame.PIPE_W, FlappyGame.BIRD_X]
    split_ifs with c1 c2 c2
    · have := b1 c1.1 c1.2
      have := b2 c2.1 c2.2
      omega
    · norm_num
    · norm_num
    · norm_num
  have hg0 : 0 ≤ FlappyGame.gain x1 f1 + FlappyGame.gain x2 f2 := by
    simp only [FlappyGame.gain]
    split_ifs <;> norm_num
  have q1 : (s.physics inp g).1.scoring.passed1 = true →
      (s.physics inp g).1.scoring.pipeX1 + 10 < 28 := by
    intro hf
    rw [s2] at hf
    rw [s4]
    rcases Bool.or_eq_true_iff.mp hf with hf | hf
    · exact a1 hf
    · exact of_decide_eq_true hf
  have q2 : (s.physics inp g).1.scoring.passed2 = true →
      (s.physics inp g).1.scoring.pipeX2 + 10 < 28 := by
    intro hf
    rw [s3] at hf
    rw [s5]
    rcases Bool.or_eq_true_iff.mp hf with hf | hf
    · exact a2 hf
    · exact of_decide_eq_true hf
  refine ⟨?_, hg, q1, q2, ?_⟩
  · cases he : s.endsInReset inp g
    · rw [update_of_noReset s inp g he]
      simp only [FlappyGame.Inv, FlappyGame.PIPE_W, FlappyGame.BIRD_X]
      refine ⟨⟨q1, ?_⟩, ⟨q2, ?_⟩, ?_, ?_, ?_, ?_⟩
      · intro hx; rw [s4] at hx; rw [s2]; simp [hx]
      · intro hx; rw [s5] at hx; rw [s3]; simp [hx]
      · rw [s4]; exact hlo.1
      · rw [s5]; exact hlo.2
      · rw [s4, s5]; exact hd
      · rw [s1, p5]; omega
    · obtain ⟨q, hq⟩ := update_of_reset s inp g he
      rw [hq]
      exact reset_inv _ _
  · cases he : s.endsInReset inp g
    · rw [update_of_noReset s inp g he]
      simp only
      rw [s1, p5]
      omega
    · obtain ⟨q, hq⟩ := update_of_reset s inp g he
      rw [hq, (reset_fields _ _).1]
      omega

theorem runs_inv (inps : List Inputs) :
    ∀ (s : FlappyGame) (g : Rng), s.Inv → (s.runs g inps).1.Inv := by
  induction inps with
  | nil => intro s g h; exact h
  | cons inp rest ih => intro s g h; exact ih _ _ (update_inv s inp g h).1

/-- C19. In every state reached by `reset` followed by any sequence of
updates (any snapshots, any draws): each obstacle's flag is true exactly when
its trailing edge is left of the bird (`pipeX + PIPE_W < BIRD_X`). Therefore an
obstacle whose flag is set is never reported by `collidePipe`, wherever the
bird `b` is, neither in that state nor at the collision test of the next
update; in the next update the two obstacles together add at most one to the
score, and the score grows by at most one. -/
theorem C19_flag_tracks_trailing_edge (s0 : FlappyGame) (g : Rng) (inps : List Inputs)
    (inp : Inputs) (b : FlappyGame) :
    ((s0.reached g inps).1.passed1 = true ↔
      (s0.reached g inps).1.pipeX1 + FlappyGame.PIPE_W < FlappyGame.BIRD_X) ∧
    ((s0.reached g inps).1.passed2 = true ↔
      (s0.reached g inps).1.pipeX2 + FlappyGame.PIPE_W < FlappyGame.BIRD_X) ∧
    ((s0.reached g inps).1.passed1 &&
      b.collidePipe (s0.reached g inps).1.pipeX1 (s0.reached g inps).1.gapY1) = false ∧
    ((s0.reached g inps).1.passed2 &&
      b.collidePipe (s0.reached g inps).1.pipeX2 (s0.reached g inps).1.gapY2) = false ∧
    (((s0.reached g inps).1.atCollisionTest inp (s0.reached g inps).2).passed1 &&
      b.collidePipe ((s0.reached g inps).1.atCollisionTest inp (s0.reached g inps).2).pipeX1
        ((s0.reached g inps).1.atCollisionTest inp (s0.reached g inps).2).gapY1) = false ∧
    (((s0.reached g inps).1.atCollisionTest inp (s0.reached g inps).2).passed2 &&
      b.collidePipe ((s0.reached g inps).1.atCollisionTest inp (s0.reached g inps).2).pipeX2
        ((s0.reached g inps).1.atCollisionTest inp (s0.reached g inps).2).gapY2) = false ∧
    FlappyGame.gain ((s0.reached g inps).1.atScoreTest inp (s0.reached g inps).2).pipeX1
        ((s0.reached g inps).1.atScoreTest inp (s0.reached g inps).2).passed1 +
      FlappyGame.gain ((s0.reached g inps).1.atScoreTest inp (s0.reached g inps).2).pipeX2
        ((s0.reached g inps).1.atScoreTest inp (s0.reached g inps).2).passed2 ≤ 1 ∧
    ((s0.reached g inps).1.update inp (s0.reached g inps).2).1.score
      ≤ (s0.reached g inps).1.score + 1 := by
  simp only [FlappyGame.reached, FlappyGame.atCollisionTest, FlappyGame.atScoreTest]
  have hinv := runs_inv inps (s0.reset g).1 (s0.reset g).2 (reset_inv s0 g)
  generalize (s0.reset g).1.runs (s0.reset g).2 inps = st at hinv ⊢
  obtain ⟨-, u2, u3, u4, u5⟩ := update_inv st.1 inp st.2 hinv
  have i1 := hinv.1
  have i2 := hinv.2.1
  refine ⟨i1, i2, ?_, ?_, ?_, ?_, u2, u5⟩
  · exact collidePipe_of_passed b _ _ _ (fun h => by
      have := i1.mp h
      simp only [FlappyGame.PIPE_W, FlappyGame.BIRD_X] at this
      exact this)
  · exact collidePipe_of_passed b _ _ _ (fun h => by
      have := i2.mp h
      simp only [FlappyGame.PIPE_W, FlappyGame.BIRD_X] at this
      exact this)
  · exact collidePipe_of_passed b _ _ _ u3
  · exact collidePipe_of_passed b _ _ _ u4

end GameConsole
